import Mathlib

/-!
# Scout.app — Forensic Identity & Field-Provenance Resolution: a shallow embedding

This file embeds, in Lean 4, the core merge/evidence/identity logic of the
Scout.app repository (src/lib/gemini.ts, src/lib/apollo.ts and the scraper /
Apollo-merge modules), and proves or refutes the frozen specification claims
about it.

Modelling conventions:
* JavaScript `string | undefined` values are `Option String`; JS truthiness of
  such a value (`if (!x)`) is the `truthy` predicate below (`undefined` and
  `""` are falsy).
* JavaScript numbers are modelled by `JSNum`: an exact rational, `NaN`, or a
  signed infinity.  `Math.min`/`Math.max` follow ECMA semantics (`NaN`
  propagates).  Float rounding is irrelevant to every claim and is not
  modelled.
* `jsTrim` / `jsToLower` model `String.prototype.trim` / `toLowerCase`
  (the code only ever meets ASCII here).
* Impure fragments (`crypto.randomUUID()` suffixes of ids, `new Date()`
  timestamps, console logging, network calls) are not representable; ids keep
  their deterministic prefix, timestamps are omitted, and network collaborators
  are abstracted as explicit inputs (the scraped-links record, the Apollo
  result, the discovery oracle).
-/

namespace Scout

/-- JS truthiness of a `string | undefined` value: `undefined` and `""` are
falsy, every other string is truthy. -/
def truthy (v : Option String) : Bool :=
  match v with
  | none => false
  | some s => s ≠ ""

/-- JS `a || b` on `string | undefined` values. -/
def jsOr (a b : Option String) : Option String :=
  if truthy a then a else b

/-- JS `a || b` where `b` is a plain (always defined) string default. -/
def jsOrStr (a : Option String) (b : String) : String :=
  match a with
  | some s => if s ≠ "" then s else b
  | none => b

/-- `String.prototype.trim`, modelled explicitly over the character list
(ASCII whitespace; the code never meets the exotic Unicode space classes). -/
def jsTrim (s : String) : String :=
  String.mk (((s.data.dropWhile Char.isWhitespace).reverse.dropWhile
    Char.isWhitespace).reverse)

/-- `String.prototype.toLowerCase`, modelled explicitly over the character
list (the code only ever meets ASCII here). -/
def jsToLower (s : String) : String :=
  String.mk (s.data.map Char.toLower)

/-- A JavaScript number: `NaN`, `±Infinity`, or a finite value (modelled as an
exact rational; float rounding is irrelevant to the claims). -/
inductive JSNum where
  | nan : JSNum
  | posInf : JSNum
  | negInf : JSNum
  | num : ℚ → JSNum
deriving DecidableEq, Repr

/-- `Math.max` on two JS numbers (ECMA: `NaN` propagates). -/
def jsMax (a b : JSNum) : JSNum :=
  match a, b with
  | .nan, _ => .nan
  | _, .nan => .nan
  | .posInf, _ => .posInf
  | _, .posInf => .posInf
  | .negInf, x => x
  | x, .negInf => x
  | .num p, .num q => .num (if p ≤ q then q else p)

/-- `Math.min` on two JS numbers (ECMA: `NaN` propagates). -/
def jsMin (a b : JSNum) : JSNum :=
  match a, b with
  | .nan, _ => .nan
  | _, .nan => .nan
  | .negInf, _ => .negInf
  | _, .negInf => .negInf
  | .posInf, x => x
  | x, .posInf => x
  | .num p, .num q => .num (if p ≤ q then p else q)

/-- `Math.min(1, Math.max(0, c))` — the confidence clamp used throughout
`gemini.ts`. -/
def clamp01 (c : JSNum) : JSNum :=
  jsMin (.num 1) (jsMax (.num 0) c)

/-- The confidence lies in the closed unit interval (in particular it is an
actual number, not `NaN` or an infinity). -/
def InUnit (c : JSNum) : Prop :=
  match c with
  | .num q => 0 ≤ q ∧ q ≤ 1
  | _ => False

instance : DecidablePred InUnit := fun c => by
  unfold InUnit
  cases c <;> infer_instance

/-! ## Data model (src/types.ts, as consumed by the core) -/

/-- The `DataSource` enum of `types.ts`. -/
inductive DataSource where
  | official_website
  | google_business
  | directory
  | social
  | manual
  | unknown
deriving DecidableEq, Repr

/-- `FieldEvidence`: `{source, confidence, sourceUrl?}`. -/
structure FieldEvidence where
  source : DataSource
  confidence : JSNum
  sourceUrl : Option String
deriving DecidableEq, Repr

/-- `ContactField` — a field value together with its evidence. -/
structure ContactField where
  value : String
  evidence : FieldEvidence
deriving DecidableEq, Repr

/-- `ContactMethodType` of `types.ts`. -/
inductive ContactMethodType where
  | EMAIL
  | PHONE
  | LINKEDIN
  | INSTAGRAM
  | TWITTER
  | OTHER
deriving DecidableEq, Repr

/-- `ContactIntelligence` — one typed contact point.  The impure
`lastVerified` timestamp (`new Date().toISOString()`) is omitted; the id keeps
its deterministic part (`crypto.randomUUID()` suffixes are nondeterministic
and dropped). -/
structure ContactIntelligence where
  id : String
  type : ContactMethodType
  value : String
  confidence : JSNum
  source : String
  isPrimary : Bool
deriving DecidableEq, Repr

/-- The social-links sub-record of a `DiscoveredLead`.  The duplicate
lowercase `linkedin` compatibility alias always mirrors `linkedIn` in the
source and is not modelled separately. -/
structure SocialLinks where
  instagram : Option String
  linkedIn : Option String
  facebook : Option String
  twitter : Option String
deriving DecidableEq, Repr

/-- The fields of `DiscoveredLead` that the merge/evidence core reads or
writes.  `website` is a plain string (the mapper sets it to
`normalizeUrl(raw.website) || ''`). -/
structure Lead where
  companyName : String
  description : String
  website : String
  email : Option String
  phone : Option String
  address : Option String
  socialLinks : SocialLinks
  emailField : Option ContactField
  phoneField : Option ContactField
  addressField : Option ContactField
  instagramField : Option ContactField
  linkedInField : Option ContactField
  twitterField : Option ContactField
  enrichedContacts : List ContactIntelligence
deriving DecidableEq, Repr

/-! ## Normalizer (gemini.ts lines 63–108)

`normalizeUrl` calls the WHATWG `URL` constructor to strip tracking
parameters.  That constructor is a host facility; it is modelled here on the
simple `scheme://host[/path][?query][#fragment]` subset this codebase
produces (lowercasing scheme and host, defaulting an empty path to `/`,
re-serialising the query without the stripped parameters).  No claim depends
on the details of this canonicalisation. -/

/-- Characters that JS `\s` matches on the inputs occurring here (ASCII
whitespace). -/
def isJsWs (c : Char) : Bool :=
  c = ' ' ∨ c = '\t' ∨ c = '\n' ∨ c = '\r' ∨ c = '\x0b' ∨ c = '\x0c'

/-- Case-insensitive test for a leading `http://` or `https://`
(regex `/^https?:\/\//i`). -/
def hasHttpScheme (s : String) : Bool :=
  "http://".data.isPrefixOf (jsToLower s).data ∨ "https://".data.isPrefixOf (jsToLower s).data

/-- A parsed URL in the simple model. -/
structure SimpleUrl where
  scheme : String
  host : String
  path : String
  queryParams : List (String × String)
  fragment : String
deriving Repr

/-- Split a character list at the first occurrence of a delimiter character,
returning the part before and (when found) the part after the delimiter. -/
def splitFirst (delim : Char) : List Char → List Char × Option (List Char)
  | [] => ([], none)
  | c :: rest =>
    if c = delim then ([], some rest)
    else
      let (pre, post) := splitFirst delim rest
      (c :: pre, post)

/-- Parse one `k=v` query parameter. -/
def parseParam (s : String) : String × String :=
  match s.splitOn "=" with
  | [] => ("", "")
  | k :: rest => (k, String.intercalate "=" rest)

/-- Split a query string on `&` into parameters. -/
def parseQuery (q : String) : List (String × String) :=
  (q.splitOn "&").map parseParam

/-- Parse a URL in the simple `scheme://host[/path][?query][#fragment]`
model (see the section comment). -/
def parseSimpleUrl (s : String) : Option SimpleUrl :=
  let (schemeCs, afterScheme) := splitFirst ':' s.data
  match afterScheme with
  | none => none
  | some after =>
    if "//".data.isPrefixOf after then
      let rest := after.drop 2
      let (beforeFrag, frag) := splitFirst '#' rest
      let (beforeQuery, query) := splitFirst '?' beforeFrag
      let (hostCs, path) := splitFirst '/' beforeQuery
      if hostCs = [] then none
      else if schemeCs = [] then none
      else some {
        scheme := jsToLower (String.mk schemeCs)
        host := jsToLower (String.mk hostCs)
        path := match path with
          | none => "/"
          | some p => "/" ++ String.mk p
        queryParams := match query with
          | none => []
          | some q => if q = [] then [] else parseQuery (String.mk q)
        fragment := match frag with
          | none => ""
          | some f => "#" ++ String.mk f }
    else none

/-- The tracking parameters `normalizeUrl` deletes. -/
def paramsToStrip : List String :=
  ["utm_source", "utm_medium", "utm_campaign", "utm_term", "utm_content",
   "fbclid", "gclid"]

/-- Serialise a `SimpleUrl` back to a string. -/
def SimpleUrl.render (u : SimpleUrl) : String :=
  u.scheme ++ "://" ++ u.host ++ u.path ++
    (if u.queryParams.isEmpty then ""
     else "?" ++ String.intercalate "&" (u.queryParams.map (fun p => p.1 ++ "=" ++ p.2))) ++
    u.fragment

/-- `normalizeUrl` (gemini.ts 63–82): trim; prepend `https://` when no
`http(s)://` prefix; strip tracking parameters via the URL constructor,
falling back to the prefixed string when parsing fails. -/
def normalizeUrl (url : Option String) : Option String :=
  match url with
  | none => none
  | some u =>
    let clean := jsTrim u
    if clean = "" then none
    else
      let clean := if hasHttpScheme clean then clean else "https://" ++ clean
      match parseSimpleUrl clean with
      | some parsed =>
        some (SimpleUrl.render
          { parsed with queryParams := parsed.queryParams.filter (fun p => p.1 ∉ paramsToStrip) })
      | none => some clean

/-- `normalizeHandle` (gemini.ts 84–93): trim; `undefined` when empty; strip
one leading `@` (regex `/^@/`); strip trailing slashes (regex `/\/+$/`). -/
def normalizeHandle (handle : Option String) : Option String :=
  match handle with
  | none => none
  | some h =>
    let clean := jsTrim h
    if clean = "" then none
    else
      let clean := match clean.data with
        | '@' :: rest => String.mk rest
        | cs => String.mk cs
      some (String.mk (clean.data.reverse.dropWhile (· = '/')).reverse)

/-- `normalizeDomain` (gemini.ts 95–102): lowercase + trim; `null` when
empty; strip the regex prefix `^(https?:\/\/)?(www\.)?`; truncate at the
first `/`, `?` or `#`; `null` when the remainder is empty. -/
def stripWwwProto (cs : List Char) : List Char :=
  let cs1 :=
    if "https://".data.isPrefixOf cs then cs.drop 8
    else if "http://".data.isPrefixOf cs then cs.drop 7
    else cs
  if "www.".data.isPrefixOf cs1 then cs1.drop 4 else cs1

/-- True of characters that end the domain part (`split(/[/?#]/)`). -/
def notDomainDelim (c : Char) : Bool :=
  c ≠ '/' ∧ c ≠ '?' ∧ c ≠ '#'

def normalizeDomain (url : Option String) : Option String :=
  match url with
  | none => none
  | some u =>
    let d0 := jsTrim (jsToLower u)
    if d0 = "" then none
    else
      let cs := (stripWwwProto d0.data).takeWhile notDomainDelim
      if cs = [] then none else some (String.mk cs)

/-- `normalizeSocial` (gemini.ts 104–108): `normalizeHandle` then lowercase;
`null` when empty (`handle?.toLowerCase() || null`). -/
def normalizeSocial (val : Option String) : Option String :=
  match normalizeHandle val with
  | none => none
  | some h =>
    let l := jsToLower h
    if l = "" then none else some l

/-! ## Identity Resolver (gemini.ts 110–127) -/

/-- The argument shape of `getIdentityKeys`. -/
structure IdentityItem where
  companyName : String
  website : Option String
  address : Option String
  socialInstagram : Option String
  socialLinkedIn : Option String
deriving DecidableEq, Repr

/-- The `name:<name>|<loc>` fallback key. -/
def fallbackKey (item : IdentityItem) : String :=
  "name:" ++ jsTrim (jsToLower item.companyName) ++ "|" ++
    ((item.address.map (fun a => jsTrim (jsToLower a))).getD "")

/-- `getIdentityKeys` (gemini.ts 110–127). -/
def getIdentityKeys (item : IdentityItem) : List String :=
  let keys : List String := []
  let keys := match normalizeDomain item.website with
    | some d => keys ++ ["dom:" ++ d]
    | none => keys
  let keys := match normalizeSocial item.socialInstagram with
    | some ig => keys ++ ["ig:" ++ ig]
    | none => keys
  if keys = [] then [fallbackKey item] else keys

/-! ## Evidence Mapper (gemini.ts 151–174)

The loosely-typed `evidence?: any` argument is modelled by `RawEvidence`:
`confidence` is `some c` exactly when the JS value is number-typed
(`typeof evidence?.confidence === 'number'`, which includes `NaN` and the
infinities); any non-number JS value behaves like `none`. -/

structure RawEvidence where
  source : Option String
  confidence : Option JSNum
  sourceUrl : Option String
deriving Repr

/-- The five known `DataSource` strings checked by `mapForensicField`. -/
def knownSources : List String :=
  ["official_website", "google_business", "directory", "social", "manual"]

/-- Map a known source string to its enum value. -/
def sourceOfString (s : String) : DataSource :=
  if s = "official_website" then .official_website
  else if s = "google_business" then .google_business
  else if s = "directory" then .directory
  else if s = "social" then .social
  else if s = "manual" then .manual
  else .unknown

/-- The `source` computation of `mapForensicField` (gemini.ts 155–159):
a known enum string maps to its value, anything else to `unknown`. -/
def mffSource (rawSource : Option String) : DataSource :=
  match rawSource with
  | some s => if s ∈ knownSources then sourceOfString s else .unknown
  | none => .unknown

/-- The pre-clamp `confidence` computation of `mapForensicField`
(gemini.ts 161–164): a number-typed evidence confidence is used as-is;
otherwise the source-dependent default applies. -/
def mffConfidence (source : DataSource) (rawConf : Option JSNum) : JSNum :=
  match rawConf with
  | some c => c
  | none =>
    if source ≠ .unknown then
      if source = .official_website ∨ source = .google_business then
        .num (mkRat 9 10)
      else .num (mkRat 7 10)
    else .num (mkRat 1 2)

/-- `mapForensicField` (gemini.ts 151–174). -/
def mapForensicField (val : Option String) (evidence : Option RawEvidence) :
    Option ContactField :=
  let finalValue := val.map jsTrim
  if ¬ truthy finalValue then none
  else
    let source := mffSource (evidence.bind (·.source))
    some {
      value := finalValue.getD ""
      evidence := {
        source := source
        confidence := clamp01 (mffConfidence source (evidence.bind (·.confidence)))
        sourceUrl := normalizeUrl (evidence.bind (·.sourceUrl)) } }

/-! ## Discovery contact-intelligence builder (gemini.ts 217–246)

The `addIntelligence` closure inside `mapRawLeadToDiscovered`, applied to the
six scalar fields of the freshly mapped lead.  Ids keep the deterministic
`intel_` prefix (the `crypto.randomUUID()` suffix is nondeterministic). -/

/-- The `contactEvidence` keys used by the six `addIntelligence` calls. -/
inductive EvidenceKey where
  | website
  | email
  | phone
  | instagram
  | linkedIn
  | twitter
deriving DecidableEq, Repr

/-- Default intelligence confidence when no numeric confidence was supplied:
`website`/`email` → 0.9; keys whose lowercase form contains a social platform
name (`instagram`, `linkedIn`, `twitter`) → 0.7; otherwise (only `phone`
here) the initial 0.5 stands. -/
def intelDefaultConf : EvidenceKey → ℚ
  | .website => mkRat 9 10
  | .email => mkRat 9 10
  | .instagram => mkRat 7 10
  | .linkedIn => mkRat 7 10
  | .twitter => mkRat 7 10
  | .phone => mkRat 1 2

/-- `evidence?.source?.replace(/_/g, ' ') || "Public Discovery"`. -/
def intelSourceStr (ev : Option RawEvidence) : String :=
  match ev.bind (·.source) with
  | some s =>
    let replaced := String.mk (s.data.map (fun c => if c = '_' then ' ' else c))
    if replaced = "" then "Public Discovery" else replaced
  | none => "Public Discovery"

/-- One `addIntelligence` call: skip falsy values; confidence comes from the
numeric evidence confidence when present, else the key-specific default,
clamped; `isPrimary` is true exactly when no earlier entry shares the type. -/
def addIntelligence (acc : List ContactIntelligence) (t : ContactMethodType)
    (value : Option String) (ev : Option RawEvidence) (k : EvidenceKey) :
    List ContactIntelligence :=
  if ¬ truthy value then acc
  else
    let confidence : JSNum :=
      match ev.bind (·.confidence) with
      | some c => c
      | none => .num (intelDefaultConf k)
    acc ++ [{
      id := "intel_"
      type := t
      value := value.getD ""
      confidence := clamp01 confidence
      source := intelSourceStr ev
      isPrimary := ! acc.any (fun e => e.type = t) }]

/-- The `contactEvidence` sub-records consumed by the six calls. -/
structure ContactEvidenceMap where
  website : Option RawEvidence
  email : Option RawEvidence
  phone : Option RawEvidence
  instagram : Option RawEvidence
  linkedIn : Option RawEvidence
  twitter : Option RawEvidence

/-- A `ContactEvidenceMap` with every entry absent. -/
def ContactEvidenceMap.empty : ContactEvidenceMap :=
  ⟨none, none, none, none, none, none⟩

/-- The six `addIntelligence` calls of `mapRawLeadToDiscovered`, in source
order, over the mapped lead's scalar fields. -/
def discoveryContacts (website : String)
    (email phone instagram linkedIn twitter : Option String)
    (ce : ContactEvidenceMap) : List ContactIntelligence :=
  let l := addIntelligence [] .OTHER (some website) ce.website .website
  let l := addIntelligence l .EMAIL email ce.email .email
  let l := addIntelligence l .PHONE phone ce.phone .phone
  let l := addIntelligence l .INSTAGRAM instagram ce.instagram .instagram
  let l := addIntelligence l .LINKEDIN linkedIn ce.linkedIn .linkedIn
  addIntelligence l .TWITTER twitter ce.twitter .twitter

/-! ## HTML-scrape merge layer (scraper module and gemini.ts 319–394)

`scrapeSocialLinks` is a network collaborator; its result — the
`ScrapedSocialLinks` record — is an explicit input here.  The scraper only
assigns a key when a link was found, so `Object.keys(scrapedLinks).length`
counts the present fields. -/

/-- `ScrapedSocialLinks` (scraper module). -/
structure ScrapedSocialLinks where
  instagram : Option String
  facebook : Option String
  twitter : Option String
  linkedIn : Option String
  youtube : Option String
  tiktok : Option String
deriving DecidableEq, Repr

/-- Number of keys present on a scraped-links record
(`Object.keys(scrapedLinks).length`). -/
def ScrapedSocialLinks.keyCount (s : ScrapedSocialLinks) : Nat :=
  [s.instagram, s.facebook, s.twitter, s.linkedIn, s.youtube, s.tiktok].countP
    (·.isSome)

/-- `mergeSocialLinks` (scraper module): per-field JS `existing || scraped`. -/
def mergeSocialLinks (existing scraped : ScrapedSocialLinks) :
    ScrapedSocialLinks where
  instagram := jsOr existing.instagram scraped.instagram
  facebook := jsOr existing.facebook scraped.facebook
  twitter := jsOr existing.twitter scraped.twitter
  linkedIn := jsOr existing.linkedIn scraped.linkedIn
  youtube := jsOr existing.youtube scraped.youtube
  tiktok := jsOr existing.tiktok scraped.tiktok

/-- View a lead's social-links record as the `Partial<ScrapedSocialLinks>`
passed to `mergeSocialLinks` (`lead.socialLinks || {}`). -/
def SocialLinks.toScraped (s : SocialLinks) : ScrapedSocialLinks :=
  ⟨s.instagram, s.facebook, s.twitter, s.linkedIn, none, none⟩

/-- `!!( lead.socialLinks?.instagram || ... )` — gemini.ts 328–333. -/
def hasSocialLinks (lead : Lead) : Bool :=
  truthy lead.socialLinks.instagram ||
  truthy lead.socialLinks.facebook ||
  truthy lead.socialLinks.twitter ||
  truthy lead.socialLinks.linkedIn

/-- Evidence attached to a scraped link (gemini.ts 359–382). -/
def scrapedEvidence (website : String) : FieldEvidence :=
  { source := .official_website
    confidence := .num (mkRat 85 100)
    sourceUrl := some (website ++ " (HTML Scraper)") }

/-- The per-lead scrape fallback of `discoverProspects` (gemini.ts 323–387):
skip when the lead has no website, already has a social link, or the scrape
found nothing; otherwise merge the scraped links (fill-only) and attach
`official_website`/0.85 evidence to each link present after the merge. -/
def scrapeFallbackStep (lead : Lead) (scraped : ScrapedSocialLinks) : Lead :=
  if lead.website = "" then lead
  else if hasSocialLinks lead then lead
  else if scraped.keyCount = 0 then lead
  else
    let merged := mergeSocialLinks lead.socialLinks.toScraped scraped
    { lead with
      socialLinks :=
        { instagram := merged.instagram
          linkedIn := merged.linkedIn
          facebook := merged.facebook
          twitter := merged.twitter }
      instagramField :=
        if truthy merged.instagram then
          some ⟨merged.instagram.getD "", scrapedEvidence lead.website⟩
        else lead.instagramField
      linkedInField :=
        if truthy merged.linkedIn then
          some ⟨merged.linkedIn.getD "", scrapedEvidence lead.website⟩
        else lead.linkedInField
      twitterField :=
        if truthy merged.twitter then
          some ⟨merged.twitter.getD "", scrapedEvidence lead.website⟩
        else lead.twitterField }

/-! ## Apollo merge layer (gemini.ts 663–843, apollo.ts)

`fullEnrichment` is a network collaborator; its `ApolloEnrichmentResult` is an
explicit input.  The organisation merge (gemini.ts 686–766) is modelled as
six sequential steps mirroring the six `if` blocks. -/

/-- The organisation fields consumed from Apollo. -/
structure ApolloOrganization where
  phone : Option String
  street_address : Option String
  city : Option String
  state : Option String
  postal_code : Option String
  country : Option String
  linkedin_url : Option String
  twitter_url : Option String
  facebook_url : Option String
  short_description : Option String
deriving DecidableEq, Repr

/-- An Apollo organisation record with every field absent. -/
def ApolloOrganization.empty : ApolloOrganization :=
  ⟨none, none, none, none, none, none, none, none, none, none⟩

/-- One phone entry of an Apollo person. -/
structure ApolloPhone where
  sanitized_number : Option String
deriving DecidableEq, Repr

/-- The person fields consumed from Apollo. -/
structure ApolloPerson where
  email : Option String
  email_status : Option String
  phone_numbers : Option (List ApolloPhone)
  linkedin_url : Option String
  title : Option String
deriving DecidableEq, Repr

/-- `ApolloEnrichmentResult` as consumed by the deep scan. -/
structure ApolloEnrichmentResult where
  success : Bool
  organization : Option ApolloOrganization
  people : Option (List ApolloPerson)
deriving DecidableEq, Repr

/-- Evidence attached to a field filled from the Apollo organisation record
(gemini.ts 694–699 etc.). -/
def apolloOrgEvidence : FieldEvidence :=
  { source := .directory
    confidence := .num (mkRat 9 10)
    sourceUrl := some "Apollo.io Organization Enrichment" }

/-- `if (org.phone && !enrichedLead.phone)` — gemini.ts 690–700. -/
def apolloPhoneStep (org : ApolloOrganization) (e : Lead) : Lead :=
  if truthy org.phone && ! truthy e.phone then
    { e with
      phone := org.phone
      phoneField := some ⟨org.phone.getD "", apolloOrgEvidence⟩ }
  else e

/-- `[street_address, city, state, postal_code, country].filter(Boolean).join(', ')`. -/
def apolloFullAddress (org : ApolloOrganization) : String :=
  String.intercalate ", "
    (([org.street_address, org.city, org.state, org.postal_code,
       org.country].filterMap id).filter (· ≠ ""))

/-- `if (org.street_address && !enrichedLead.address)` — gemini.ts 703–721. -/
def apolloAddressStep (org : ApolloOrganization) (e : Lead) : Lead :=
  if truthy org.street_address && ! truthy e.address then
    { e with
      address := some (apolloFullAddress org)
      addressField := some ⟨apolloFullAddress org, apolloOrgEvidence⟩ }
  else e

/-- `if (org.linkedin_url && !enrichedLead.socialLinks?.linkedIn)` —
gemini.ts 724–738. -/
def apolloLinkedInStep (org : ApolloOrganization) (e : Lead) : Lead :=
  if truthy org.linkedin_url && ! truthy e.socialLinks.linkedIn then
    { e with
      socialLinks := { e.socialLinks with linkedIn := org.linkedin_url }
      linkedInField := some ⟨org.linkedin_url.getD "", apolloOrgEvidence⟩ }
  else e

/-- `if (org.twitter_url && !enrichedLead.socialLinks?.twitter)` —
gemini.ts 740–753. -/
def apolloTwitterStep (org : ApolloOrganization) (e : Lead) : Lead :=
  if truthy org.twitter_url && ! truthy e.socialLinks.twitter then
    { e with
      socialLinks := { e.socialLinks with twitter := org.twitter_url }
      twitterField := some ⟨org.twitter_url.getD "", apolloOrgEvidence⟩ }
  else e

/-- `if (org.facebook_url && !enrichedLead.socialLinks?.facebook)` —
gemini.ts 755–760 (no evidence field is attached for facebook). -/
def apolloFacebookStep (org : ApolloOrganization) (e : Lead) : Lead :=
  if truthy org.facebook_url && ! truthy e.socialLinks.facebook then
    { e with socialLinks := { e.socialLinks with facebook := org.facebook_url } }
  else e

/-- `if (org.short_description)` — gemini.ts 763–765. -/
def apolloDescriptionStep (org : ApolloOrganization) (e : Lead) : Lead :=
  match org.short_description with
  | some sd =>
    if sd ≠ "" then
      { e with description := e.description ++ "\n\nCompany Info: " ++ sd }
    else e
  | none => e

/-- The whole organisation merge block (gemini.ts 686–766). -/
def applyApolloOrg (lead : Lead) (org : ApolloOrganization) : Lead :=
  apolloDescriptionStep org
    (apolloFacebookStep org
      (apolloTwitterStep org
        (apolloLinkedInStep org
          (apolloAddressStep org
            (apolloPhoneStep org lead)))))

/-- Confidence of an Apollo e-mail entry:
`email_status === 'verified' ? 0.95 : 0.75`. -/
def apolloEmailConf (status : Option String) : JSNum :=
  if status = some "verified" then .num (mkRat 95 100) else .num (mkRat 75 100)

/-- `Apollo.io - ${person.title || 'Contact'}`. -/
def apolloSource (title : Option String) : String :=
  "Apollo.io - " ++ jsOrStr title "Contact"

/-- The e-mail entry produced for one Apollo person (gemini.ts 774–783). -/
def apolloEmailEntries (personIndex : Nat) (p : ApolloPerson) :
    List ContactIntelligence :=
  match p.email with
  | some em =>
    if em ≠ "" then
      [{ id := "apollo-email-" ++ toString personIndex
         type := .EMAIL
         value := em
         confidence := apolloEmailConf p.email_status
         source := apolloSource p.title
         isPrimary := personIndex = 0 }]
    else []
  | none => []

/-- The phone entries produced for one Apollo person (gemini.ts 800–813). -/
def apolloPhoneEntries (personIndex : Nat) (p : ApolloPerson) :
    List ContactIntelligence :=
  match p.phone_numbers with
  | some phones =>
    phones.enum.filterMap (fun ip =>
      match ip.2.sanitized_number with
      | some n =>
        if n ≠ "" then
          some { id := "apollo-phone-" ++ toString personIndex ++ "-" ++
                   toString ip.1
                 type := .PHONE
                 value := n
                 confidence := .num (mkRat 8 10)
                 source := apolloSource p.title
                 isPrimary := personIndex = 0 ∧ ip.1 = 0 }
        else none
      | none => none)
  | none => []

/-- The LinkedIn entry produced for one Apollo person (gemini.ts 816–825). -/
def apolloLinkedInEntries (personIndex : Nat) (p : ApolloPerson) :
    List ContactIntelligence :=
  match p.linkedin_url with
  | some li =>
    if li ≠ "" then
      [{ id := "apollo-linkedin-" ++ toString personIndex
         type := .LINKEDIN
         value := li
         confidence := .num (mkRat 9 10)
         source := apolloSource p.title
         isPrimary := personIndex = 0 }]
    else []
  | none => []

/-- The `ContactIntelligence` entries produced for one Apollo person
(gemini.ts 772–826): e-mail entry, then phone entries, then a LinkedIn
entry; primaries go to person index 0 (and phone index 0). -/
def apolloPersonContacts (personIndex : Nat) (p : ApolloPerson) :
    List ContactIntelligence :=
  apolloEmailEntries personIndex p ++ apolloPhoneEntries personIndex p ++
    apolloLinkedInEntries personIndex p

/-- The people merge block (gemini.ts 769–835): build the entry list in
person order; set the scalar e-mail (with `directory` evidence from
"Apollo.io People Search") only from person 0 and only when the lead has no
e-mail yet; append all entries to the existing contact list. -/
def apolloPeopleStep (lead : Lead) (people : List ApolloPerson) : Lead :=
  let contacts := (people.enum.map (fun ip => apolloPersonContacts ip.1 ip.2)).flatten
  let e :=
    match people.head? with
    | some p0 =>
      (match p0.email with
       | some em =>
         if em ≠ "" ∧ ¬ truthy lead.email then
           { lead with
             email := some em
             emailField := some ⟨em,
               { source := .directory
                 confidence := apolloEmailConf p0.email_status
                 sourceUrl := some "Apollo.io People Search" }⟩ }
         else lead
       | none => lead)
    | none => lead
  { e with enrichedContacts := e.enrichedContacts ++ contacts }

/-- Per-lead Apollo enrichment (gemini.ts 663–843): skip when the lead has no
website or the enrichment failed; otherwise merge the organisation data, then
the people data (when non-empty). -/
def enrichLeadApollo (lead : Lead) (res : ApolloEnrichmentResult) : Lead :=
  if lead.website = "" ∨ jsTrim lead.website = "" then lead
  else if res.success = false then lead
  else
    let e :=
      match res.organization with
      | some org => applyApolloOrg lead org
      | none => lead
    match res.people with
    | some people => if people ≠ [] then apolloPeopleStep e people else e
    | none => e

/-! ## Deep-scan pipeline (gemini.ts 622–849, apollo.ts 21–31) -/

/-- Per-lead deep-scan composition as the code performs it: `discoverProspects`
applies the scrape fallback while building each lead, and
`discoverProspectsDeepScan` then layers the Apollo enrichment on top. -/
def deepScanLeadPipeline (lead : Lead) (scraped : ScrapedSocialLinks)
    (res : ApolloEnrichmentResult) : Lead :=
  enrichLeadApollo (scrapeFallbackStep lead scraped) res

/-- Modelled from the spec: the per-lead merge order the spec asserts —
"enrichment-API data is layered second; HTML-scrape data is layered third and
only fills gaps still remaining after the second layer".  Kept for comparison
with `deepScanLeadPipeline`, which is the order the code implements. -/
def specOrderLeadPipeline (lead : Lead) (scraped : ScrapedSocialLinks)
    (res : ApolloEnrichmentResult) : Lead :=
  scrapeFallbackStep (enrichLeadApollo lead res) scraped

/-- `isApolloConfigured` (apollo.ts 28–31): `!!apiKey && apiKey.length > 0`,
where `apiKey` is the ambient `VITE_APOLLO_API_KEY` (string or undefined). -/
def isApolloConfigured (apiKey : Option String) : Bool :=
  match apiKey with
  | none => false
  | some k => 0 < k.length

/-- Scan depth argument of `discoverProspects`. -/
inductive ScanDepth where
  | STANDARD
  | DEEP
deriving DecidableEq, Repr

/-- The deep scan's collaborators, abstracted: `discover d` is the result of
the `discoverProspects` call at depth `d` with the deep scan's own arguments
(scrape fallback already applied inside it), and `enrich lead` is the result
of `fullEnrichment(lead.website)` for that lead. -/
structure DeepScanEnv where
  discover : ScanDepth → List Lead
  enrich : Lead → ApolloEnrichmentResult

/-- `discoverProspectsDeepScan` (gemini.ts 622–849): fall back to a STANDARD
`discoverProspects` run when Apollo is unconfigured; otherwise run a DEEP
discovery, return `[]` when it found nothing, and otherwise enrich every
lead with Apollo. -/
def discoverProspectsDeepScan (apiKey : Option String) (env : DeepScanEnv) :
    List Lead :=
  if ¬ isApolloConfigured apiKey then env.discover .STANDARD
  else
    let geminiLeads := env.discover .DEEP
    if geminiLeads.isEmpty then []
    else geminiLeads.map (fun lead => enrichLeadApollo lead (env.enrich lead))

/-! ## JSON Extraction/Recovery (gemini.ts 129–149)

`JSON.parse` is a host facility; it is modelled by a standard JSON parser
(objects, arrays, strings with the usual escapes, numbers as exact rationals,
booleans, null, the four JSON whitespace characters, trailing garbage
rejected).  Float rounding and lone-surrogate `\u` escapes are irrelevant to
every claim and are not modelled bit-exactly. -/

/-- A parsed JSON value. -/
inductive Json where
  | null : Json
  | bool : Bool → Json
  | num : ℚ → Json
  | str : String → Json
  | arr : List Json → Json
  | obj : List (String × Json) → Json

/-- JSON insignificant whitespace. -/
def isJsonWs (c : Char) : Bool :=
  c = ' ' ∨ c = '\t' ∨ c = '\n' ∨ c = '\r'

/-- Decimal digit test. -/
def isDigitCh (c : Char) : Bool :=
  '0' ≤ c ∧ c ≤ '9'

/-- Value of a hex digit, if any. -/
def hexVal (c : Char) : Option Nat :=
  if '0' ≤ c ∧ c ≤ '9' then some (c.toNat - '0'.toNat)
  else if 'a' ≤ c ∧ c ≤ 'f' then some (c.toNat - 'a'.toNat + 10)
  else if 'A' ≤ c ∧ c ≤ 'F' then some (c.toNat - 'A'.toNat + 10)
  else none

/-- Parse the body of a JSON string (the opening quote already consumed). -/
def parseJsonStringBody : List Char → List Char → Option (String × List Char)
  | acc, '"' :: rest => some (String.mk acc.reverse, rest)
  | acc, '\\' :: e :: rest =>
    (match e with
     | '"' => parseJsonStringBody ('"' :: acc) rest
     | '\\' => parseJsonStringBody ('\\' :: acc) rest
     | '/' => parseJsonStringBody ('/' :: acc) rest
     | 'b' => parseJsonStringBody ('\x08' :: acc) rest
     | 'f' => parseJsonStringBody ('\x0c' :: acc) rest
     | 'n' => parseJsonStringBody ('\n' :: acc) rest
     | 'r' => parseJsonStringBody ('\r' :: acc) rest
     | 't' => parseJsonStringBody ('\t' :: acc) rest
     | 'u' =>
       match rest with
       | h1 :: h2 :: h3 :: h4 :: rest' =>
         match hexVal h1, hexVal h2, hexVal h3, hexVal h4 with
         | some a, some b, some c, some d =>
           parseJsonStringBody
             (Char.ofNat (((a * 16 + b) * 16 + c) * 16 + d) :: acc) rest'
         | _, _, _, _ => none
       | _ => none
     | _ => none)
  | _, '\\' :: _ => none
  | acc, c :: rest =>
    if c.toNat < 0x20 then none else parseJsonStringBody (c :: acc) rest
  | _, [] => none

/-- Integer value of a digit run. -/
def digitsToNat (ds : List Char) : Nat :=
  ds.foldl (fun n c => n * 10 + (c.toNat - '0'.toNat)) 0

/-- Parse a JSON number (grammar `-? (0 | [1-9][0-9]*) frac? exp?`), as an
exact rational (built with `mkRat` over integer arithmetic). -/
def parseJsonNumber (cs : List Char) : Option (ℚ × List Char) :=
  let (neg, cs1) := match cs with
    | '-' :: rest => (true, rest)
    | _ => (false, cs)
  let intDigits := cs1.takeWhile isDigitCh
  let afterInt := cs1.drop intDigits.length
  if intDigits = [] then none
  else if intDigits.length > 1 ∧ intDigits.head? = some '0' then none
  else
    let (fracDigits, afterFrac) := match afterInt with
      | '.' :: rest =>
        let fd := rest.takeWhile isDigitCh
        (fd, rest.drop fd.length)
      | _ => ([], afterInt)
    if afterInt ≠ afterFrac ∧ fracDigits = [] then none
    else
      let base : Int :=
        (if neg then -1 else 1) *
          ((digitsToNat intDigits) * 10 ^ fracDigits.length +
            digitsToNat fracDigits)
      let expPart : Option (Bool × List Char × List Char) :=
        match afterFrac with
        | 'e' :: rest | 'E' :: rest =>
          let (eneg, rest2) := match rest with
            | '+' :: r => (false, r)
            | '-' :: r => (true, r)
            | r => (false, r)
          let ed := rest2.takeWhile isDigitCh
          some (eneg, ed, rest2.drop ed.length)
        | _ => none
      match expPart with
      | some (_, [], _) => none
      | some (eneg, ed, afterExp) =>
        let e := digitsToNat ed
        if eneg then
          some (mkRat base (10 ^ fracDigits.length * 10 ^ e), afterExp)
        else
          some (mkRat (base * 10 ^ e) (10 ^ fracDigits.length), afterExp)
      | none =>
        some (mkRat base (10 ^ fracDigits.length), afterFrac)

mutual

/-- Parse one JSON value (fuel-indexed to make recursion structural; the fuel
passed by `jsonParse` always suffices). -/
def parseJsonValue : Nat → List Char → Option (Json × List Char)
  | 0, _ => none
  | fuel + 1, cs =>
    match cs.dropWhile isJsonWs with
    | [] => none
    | 'n' :: 'u' :: 'l' :: 'l' :: rest => some (.null, rest)
    | 't' :: 'r' :: 'u' :: 'e' :: rest => some (.bool true, rest)
    | 'f' :: 'a' :: 'l' :: 's' :: 'e' :: rest => some (.bool false, rest)
    | '"' :: rest =>
      match parseJsonStringBody [] rest with
      | some (s, rest') => some (.str s, rest')
      | none => none
    | '[' :: rest =>
      (match (rest.dropWhile isJsonWs) with
       | ']' :: rest' => some (.arr [], rest')
       | _ =>
         match parseJsonElements fuel rest with
         | some (xs, rest') => some (.arr xs, rest')
         | none => none)
    | '{' :: rest =>
      (match (rest.dropWhile isJsonWs) with
       | '}' :: rest' => some (.obj [], rest')
       | _ =>
         match parseJsonMembers fuel rest with
         | some (kvs, rest') => some (.obj kvs, rest')
         | none => none)
    | other =>
      match parseJsonNumber other with
      | some (q, rest) => some (.num q, rest)
      | none => none

/-- Parse the non-empty element list of an array, including the closing `]`. -/
def parseJsonElements : Nat → List Char → Option (List Json × List Char)
  | 0, _ => none
  | fuel + 1, cs =>
    match parseJsonValue fuel cs with
    | none => none
    | some (v, rest) =>
      match rest.dropWhile isJsonWs with
      | ',' :: rest' =>
        (match parseJsonElements fuel rest' with
         | some (vs, rest'') => some (v :: vs, rest'')
         | none => none)
      | ']' :: rest' => some ([v], rest')
      | _ => none

/-- Parse the non-empty member list of an object, including the closing `}`. -/
def parseJsonMembers : Nat → List Char → Option (List (String × Json) × List Char)
  | 0, _ => none
  | fuel + 1, cs =>
    match cs.dropWhile isJsonWs with
    | '"' :: rest =>
      (match parseJsonStringBody [] rest with
       | none => none
       | some (k, rest') =>
         match rest'.dropWhile isJsonWs with
         | ':' :: rest'' =>
           (match parseJsonValue fuel rest'' with
            | none => none
            | some (v, rest3) =>
              match rest3.dropWhile isJsonWs with
              | ',' :: rest4 =>
                (match parseJsonMembers fuel rest4 with
                 | some (kvs, rest5) => some ((k, v) :: kvs, rest5)
                 | none => none)
              | '}' :: rest4 => some ([(k, v)], rest4)
              | _ => none)
         | _ => none)
    | _ => none

end

/-- `JSON.parse`: parse one value, allow surrounding whitespace, reject
trailing garbage and total failure. -/
def jsonParse (s : String) : Option Json :=
  match parseJsonValue (2 * s.length + 2) s.data with
  | some (v, rest) => if (rest.dropWhile isJsonWs).isEmpty then some v else none
  | none => none

/-! Regex models for `extractJson`'s two fallbacks. -/

/-- All end candidates for the greedy tail `\}\s*\]` of the array regex:
pairs `(j, m)` of original indices with `cs[j] = '}'`, only whitespace
strictly between `j` and `m`, and `cs[m] = ']'` — produced in decreasing
order of `m` (the greedy engine prefers the largest end). -/
def arrayEndCandidates (cs : List Char) : List (Nat × Nat) :=
  let n := cs.length
  (List.range n).reverse.filterMap (fun m =>
    if cs.getD m ' ' = ']' then
      let before := (cs.take m).reverse
      let ws := before.takeWhile isJsWs
      let j := m - 1 - ws.length
      match (before.drop ws.length).head? with
      | some '}' => some (j, m)
      | _ => none
    else none)

/-- The first viable start of the array regex `\[\s*\{`: the least index `i`
with `cs[i] = '['` followed, after whitespace, by `'{'`; returns
`(i, index of the '{')`. -/
def arrayStart (cs : List Char) : Option (Nat × Nat) :=
  (List.range cs.length).findSome? (fun i =>
    if cs.getD i ' ' = '[' then
      let after := cs.drop (i + 1)
      let ws := after.takeWhile isJsWs
      match (after.drop ws.length).head? with
      | some '{' => some (i, i + 1 + ws.length)
      | _ => none
    else none)

/-- The match of `/\[\s*\{[\s\S]*\}\s*\]/` against `cs`, when any: from the
first viable `[`, to the largest `]` whose closing `}` lies after the
opening `{`. -/
def arrayObjMatch (cs : List Char) : Option (List Char) :=
  match arrayStart cs with
  | none => none
  | some (i, ibrace) =>
    match (arrayEndCandidates cs).find? (fun jm => ibrace + 1 ≤ jm.1) with
    | some (_, m) => some ((cs.take (m + 1)).drop i)
    | none => none

/-- First index at which `pat` occurs as a contiguous sublist of `cs`. -/
def findSublist (pat : List Char) : List Char → Option Nat
  | [] => if pat = [] then some 0 else none
  | c :: rest =>
    if pat.isPrefixOf (c :: rest) then some 0
    else (findSublist pat rest).map (· + 1)

/-- Capture group 1 of `/```(?:json)?\s*([\s\S]*?)\s*```/`: the text between
the first fence (after an optional greedy `json` tag) and the next fence,
with the surrounding whitespace absorbed by the `\s*`s (i.e. trimmed).
`none` when there is no complete fenced block. -/
def fencedGroup (cs : List Char) : Option String :=
  match findSublist "```".data cs with
  | none => none
  | some i =>
    let afterOpen := cs.drop (i + 3)
    let afterTag :=
      if "json".data.isPrefixOf afterOpen then afterOpen.drop 4 else afterOpen
    match findSublist "```".data afterTag with
    | none => none
    | some k => some (jsTrim (String.mk (afterTag.take k)))

/-- `extractJson` (gemini.ts 129–149): direct parse of the trimmed text; on
failure, parse of the `/\[\s*\{[\s\S]*\}\s*\]/` match; on failure, parse of a
fenced code block's non-empty body; else `null`. -/
def extractJson (text : String) : Option Json :=
  if text = "" then none
  else
    let trimmed := jsTrim text
    match jsonParse trimmed with
    | some v => some v
    | none =>
      let afterArray : Option Json :=
        match arrayObjMatch trimmed.data with
        | some sub => jsonParse (String.mk sub)
        | none => none
      match afterArray with
      | some v => some v
      | none =>
        match fencedGroup trimmed.data with
        | some g => if g = "" then none else jsonParse (jsTrim g)
        | none => none

/-! # Theorems -/

/-! ### Projection (frame) lemmas for the Apollo merge steps

Each `if`-guarded block of the organisation merge touches only its own
fields; these lemmas record what every step leaves untouched, and the
`_skip` lemmas record that a step is a no-op when its target field is
already truthy. -/

theorem apolloPhoneStep_address (org : ApolloOrganization) (e : Lead) :
    (apolloPhoneStep org e).address = e.address := by
  unfold apolloPhoneStep; split <;> rfl

theorem apolloPhoneStep_socialLinks (org : ApolloOrganization) (e : Lead) :
    (apolloPhoneStep org e).socialLinks = e.socialLinks := by
  unfold apolloPhoneStep; split <;> rfl

theorem apolloPhoneStep_instagramField (org : ApolloOrganization) (e : Lead) :
    (apolloPhoneStep org e).instagramField = e.instagramField := by
  unfold apolloPhoneStep; split <;> rfl

theorem apolloAddressStep_phone (org : ApolloOrganization) (e : Lead) :
    (apolloAddressStep org e).phone = e.phone := by
  unfold apolloAddressStep; split <;> rfl

theorem apolloAddressStep_socialLinks (org : ApolloOrganization) (e : Lead) :
    (apolloAddressStep org e).socialLinks = e.socialLinks := by
  unfold apolloAddressStep; split <;> rfl

theorem apolloAddressStep_instagramField (org : ApolloOrganization) (e : Lead) :
    (apolloAddressStep org e).instagramField = e.instagramField := by
  unfold apolloAddressStep; split <;> rfl

theorem apolloLinkedInStep_phone (org : ApolloOrganization) (e : Lead) :
    (apolloLinkedInStep org e).phone = e.phone := by
  unfold apolloLinkedInStep; split <;> rfl

theorem apolloLinkedInStep_address (org : ApolloOrganization) (e : Lead) :
    (apolloLinkedInStep org e).address = e.address := by
  unfold apolloLinkedInStep; split <;> rfl

theorem apolloLinkedInStep_instagramField (org : ApolloOrganization) (e : Lead) :
    (apolloLinkedInStep org e).instagramField = e.instagramField := by
  unfold apolloLinkedInStep; split <;> rfl

theorem apolloLinkedInStep_sl_instagram (org : ApolloOrganization) (e : Lead) :
    (apolloLinkedInStep org e).socialLinks.instagram = e.socialLinks.instagram := by
  unfold apolloLinkedInStep; split <;> rfl

theorem apolloLinkedInStep_sl_twitter (org : ApolloOrganization) (e : Lead) :
    (apolloLinkedInStep org e).socialLinks.twitter = e.socialLinks.twitter := by
  unfold apolloLinkedInStep; split <;> rfl

theorem apolloLinkedInStep_sl_facebook (org : ApolloOrganization) (e : Lead) :
    (apolloLinkedInStep org e).socialLinks.facebook = e.socialLinks.facebook := by
  unfold apolloLinkedInStep; split <;> rfl

theorem apolloTwitterStep_phone (org : ApolloOrganization) (e : Lead) :
    (apolloTwitterStep org e).phone = e.phone := by
  unfold apolloTwitterStep; split <;> rfl

theorem apolloTwitterStep_address (org : ApolloOrganization) (e : Lead) :
    (apolloTwitterStep org e).address = e.address := by
  unfold apolloTwitterStep; split <;> rfl

theorem apolloTwitterStep_instagramField (org : ApolloOrganization) (e : Lead) :
    (apolloTwitterStep org e).instagramField = e.instagramField := by
  unfold apolloTwitterStep; split <;> rfl

theorem apolloTwitterStep_sl_instagram (org : ApolloOrganization) (e : Lead) :
    (apolloTwitterStep org e).socialLinks.instagram = e.socialLinks.instagram := by
  unfold apolloTwitterStep; split <;> rfl

theorem apolloTwitterStep_sl_linkedIn (org : ApolloOrganization) (e : Lead) :
    (apolloTwitterStep org e).socialLinks.linkedIn = e.socialLinks.linkedIn := by
  unfold apolloTwitterStep; split <;> rfl

theorem apolloTwitterStep_sl_facebook (org : ApolloOrganization) (e : Lead) :
    (apolloTwitterStep org e).socialLinks.facebook = e.socialLinks.facebook := by
  unfold apolloTwitterStep; split <;> rfl

theorem apolloFacebookStep_phone (org : ApolloOrganization) (e : Lead) :
    (apolloFacebookStep org e).phone = e.phone := by
  unfold apolloFacebookStep; split <;> rfl

theorem apolloFacebookStep_address (org : ApolloOrganization) (e : Lead) :
    (apolloFacebookStep org e).address = e.address := by
  unfold apolloFacebookStep; split <;> rfl

theorem apolloFacebookStep_instagramField (org : ApolloOrganization) (e : Lead) :
    (apolloFacebookStep org e).instagramField = e.instagramField := by
  unfold apolloFacebookStep; split <;> rfl

theorem apolloFacebookStep_sl_instagram (org : ApolloOrganization) (e : Lead) :
    (apolloFacebookStep org e).socialLinks.instagram = e.socialLinks.instagram := by
  unfold apolloFacebookStep; split <;> rfl

theorem apolloFacebookStep_sl_linkedIn (org : ApolloOrganization) (e : Lead) :
    (apolloFacebookStep org e).socialLinks.linkedIn = e.socialLinks.linkedIn := by
  unfold apolloFacebookStep; split <;> rfl

theorem apolloFacebookStep_sl_twitter (org : ApolloOrganization) (e : Lead) :
    (apolloFacebookStep org e).socialLinks.twitter = e.socialLinks.twitter := by
  unfold apolloFacebookStep; split <;> rfl

theorem apolloDescriptionStep_phone (org : ApolloOrganization) (e : Lead) :
    (apolloDescriptionStep org e).phone = e.phone := by
  unfold apolloDescriptionStep; split <;> (try split) <;> rfl

theorem apolloDescriptionStep_address (org : ApolloOrganization) (e : Lead) :
    (apolloDescriptionStep org e).address = e.address := by
  unfold apolloDescriptionStep; split <;> (try split) <;> rfl

theorem apolloDescriptionStep_socialLinks (org : ApolloOrganization) (e : Lead) :
    (apolloDescriptionStep org e).socialLinks = e.socialLinks := by
  unfold apolloDescriptionStep; split <;> (try split) <;> rfl

theorem apolloDescriptionStep_instagramField (org : ApolloOrganization) (e : Lead) :
    (apolloDescriptionStep org e).instagramField = e.instagramField := by
  unfold apolloDescriptionStep; split <;> (try split) <;> rfl

theorem apolloPhoneStep_skip (org : ApolloOrganization) {e : Lead}
    (h : truthy e.phone = true) : apolloPhoneStep org e = e := by
  simp [apolloPhoneStep, h]

theorem apolloAddressStep_skip (org : ApolloOrganization) {e : Lead}
    (h : truthy e.address = true) : apolloAddressStep org e = e := by
  simp [apolloAddressStep, h]

theorem apolloLinkedInStep_skip (org : ApolloOrganization) {e : Lead}
    (h : truthy e.socialLinks.linkedIn = true) : apolloLinkedInStep org e = e := by
  simp [apolloLinkedInStep, h]

theorem apolloTwitterStep_skip (org : ApolloOrganization) {e : Lead}
    (h : truthy e.socialLinks.twitter = true) : apolloTwitterStep org e = e := by
  simp [apolloTwitterStep, h]

theorem apolloFacebookStep_skip (org : ApolloOrganization) {e : Lead}
    (h : truthy e.socialLinks.facebook = true) : apolloFacebookStep org e = e := by
  simp [apolloFacebookStep, h]

theorem apolloPeopleStep_frame (e : Lead) (people : List ApolloPerson) :
    (apolloPeopleStep e people).phone = e.phone ∧
    (apolloPeopleStep e people).address = e.address ∧
    (apolloPeopleStep e people).socialLinks = e.socialLinks ∧
    (apolloPeopleStep e people).instagramField = e.instagramField := by
  unfold apolloPeopleStep
  split <;> (try split) <;> (try split) <;> exact ⟨rfl, rfl, rfl, rfl⟩

/-! ### Preservation through the whole organisation merge -/

theorem applyApolloOrg_phone {lead : Lead} (org : ApolloOrganization)
    (h : truthy lead.phone = true) :
    (applyApolloOrg lead org).phone = lead.phone := by
  unfold applyApolloOrg
  rw [apolloPhoneStep_skip org h, apolloDescriptionStep_phone,
    apolloFacebookStep_phone, apolloTwitterStep_phone,
    apolloLinkedInStep_phone, apolloAddressStep_phone]

theorem applyApolloOrg_address {lead : Lead} (org : ApolloOrganization)
    (h : truthy lead.address = true) :
    (applyApolloOrg lead org).address = lead.address := by
  unfold applyApolloOrg
  rw [apolloAddressStep_skip org
      (by rw [apolloPhoneStep_address]; exact h),
    apolloDescriptionStep_address, apolloFacebookStep_address,
    apolloTwitterStep_address, apolloLinkedInStep_address,
    apolloPhoneStep_address]

theorem applyApolloOrg_linkedIn {lead : Lead} (org : ApolloOrganization)
    (h : truthy lead.socialLinks.linkedIn = true) :
    (applyApolloOrg lead org).socialLinks.linkedIn
      = lead.socialLinks.linkedIn := by
  unfold applyApolloOrg
  rw [apolloLinkedInStep_skip org
      (by rw [apolloAddressStep_socialLinks, apolloPhoneStep_socialLinks]
          exact h),
    apolloDescriptionStep_socialLinks, apolloFacebookStep_sl_linkedIn,
    apolloTwitterStep_sl_linkedIn, apolloAddressStep_socialLinks,
    apolloPhoneStep_socialLinks]

theorem applyApolloOrg_twitter {lead : Lead} (org : ApolloOrganization)
    (h : truthy lead.socialLinks.twitter = true) :
    (applyApolloOrg lead org).socialLinks.twitter
      = lead.socialLinks.twitter := by
  unfold applyApolloOrg
  rw [apolloTwitterStep_skip org
      (by rw [apolloLinkedInStep_sl_twitter, apolloAddressStep_socialLinks,
            apolloPhoneStep_socialLinks]
          exact h),
    apolloDescriptionStep_socialLinks, apolloFacebookStep_sl_twitter,
    apolloLinkedInStep_sl_twitter, apolloAddressStep_socialLinks,
    apolloPhoneStep_socialLinks]

theorem applyApolloOrg_facebook {lead : Lead} (org : ApolloOrganization)
    (h : truthy lead.socialLinks.facebook = true) :
    (applyApolloOrg lead org).socialLinks.facebook
      = lead.socialLinks.facebook := by
  unfold applyApolloOrg
  rw [apolloFacebookStep_skip org
      (by rw [apolloTwitterStep_sl_facebook, apolloLinkedInStep_sl_facebook,
            apolloAddressStep_socialLinks, apolloPhoneStep_socialLinks]
          exact h),
    apolloDescriptionStep_socialLinks, apolloTwitterStep_sl_facebook,
    apolloLinkedInStep_sl_facebook, apolloAddressStep_socialLinks,
    apolloPhoneStep_socialLinks]

theorem applyApolloOrg_instagram (lead : Lead) (org : ApolloOrganization) :
    (applyApolloOrg lead org).socialLinks.instagram
      = lead.socialLinks.instagram := by
  unfold applyApolloOrg
  rw [apolloDescriptionStep_socialLinks, apolloFacebookStep_sl_instagram,
    apolloTwitterStep_sl_instagram, apolloLinkedInStep_sl_instagram,
    apolloAddressStep_socialLinks, apolloPhoneStep_socialLinks]

theorem applyApolloOrg_instagramField (lead : Lead) (org : ApolloOrganization) :
    (applyApolloOrg lead org).instagramField = lead.instagramField := by
  unfold applyApolloOrg
  rw [apolloDescriptionStep_instagramField, apolloFacebookStep_instagramField,
    apolloTwitterStep_instagramField, apolloLinkedInStep_instagramField,
    apolloAddressStep_instagramField, apolloPhoneStep_instagramField]

/-! ### Preservation through the whole per-lead Apollo enrichment -/

theorem enrichLeadApollo_phone {lead : Lead} (res : ApolloEnrichmentResult)
    (h : truthy lead.phone = true) :
    (enrichLeadApollo lead res).phone = lead.phone := by
  unfold enrichLeadApollo
  split
  · rfl
  · split
    · rfl
    · have he : (match res.organization with
          | some org => applyApolloOrg lead org
          | none => lead).phone = lead.phone := by
        cases res.organization with
        | none => rfl
        | some org => exact applyApolloOrg_phone org h
      cases res.people with
      | none => exact he
      | some people =>
        dsimp only
        by_cases hp : people ≠ []
        · rw [if_pos hp,
            (apolloPeopleStep_frame _ _).1, he]
        · rw [if_neg hp]
          exact he

theorem enrichLeadApollo_address {lead : Lead} (res : ApolloEnrichmentResult)
    (h : truthy lead.address = true) :
    (enrichLeadApollo lead res).address = lead.address := by
  unfold enrichLeadApollo
  split
  · rfl
  · split
    · rfl
    · have he : (match res.organization with
          | some org => applyApolloOrg lead org
          | none => lead).address = lead.address := by
        cases res.organization with
        | none => rfl
        | some org => exact applyApolloOrg_address org h
      cases res.people with
      | none => exact he
      | some people =>
        dsimp only
        by_cases hp : people ≠ []
        · rw [if_pos hp,
            (apolloPeopleStep_frame _ _).2.1, he]
        · rw [if_neg hp]
          exact he

theorem enrichLeadApollo_linkedIn {lead : Lead} (res : ApolloEnrichmentResult)
    (h : truthy lead.socialLinks.linkedIn = true) :
    (enrichLeadApollo lead res).socialLinks.linkedIn
      = lead.socialLinks.linkedIn := by
  unfold enrichLeadApollo
  split
  · rfl
  · split
    · rfl
    · have he : (match res.organization with
          | some org => applyApolloOrg lead org
          | none => lead).socialLinks.linkedIn
            = lead.socialLinks.linkedIn := by
        cases res.organization with
        | none => rfl
        | some org => exact applyApolloOrg_linkedIn org h
      cases res.people with
      | none => exact he
      | some people =>
        dsimp only
        by_cases hp : people ≠ []
        · rw [if_pos hp,
            (apolloPeopleStep_frame _ _).2.2.1, he]
        · rw [if_neg hp]
          exact he

theorem enrichLeadApollo_twitter {lead : Lead} (res : ApolloEnrichmentResult)
    (h : truthy lead.socialLinks.twitter = true) :
    (enrichLeadApollo lead res).socialLinks.twitter
      = lead.socialLinks.twitter := by
  unfold enrichLeadApollo
  split
  · rfl
  · split
    · rfl
    · have he : (match res.organization with
          | some org => applyApolloOrg lead org
          | none => lead).socialLinks.twitter
            = lead.socialLinks.twitter := by
        cases res.organization with
        | none => rfl
        | some org => exact applyApolloOrg_twitter org h
      cases res.people with
      | none => exact he
      | some people =>
        dsimp only
        by_cases hp : people ≠ []
        · rw [if_pos hp,
            (apolloPeopleStep_frame _ _).2.2.1, he]
        · rw [if_neg hp]
          exact he

theorem enrichLeadApollo_facebook {lead : Lead} (res : ApolloEnrichmentResult)
    (h : truthy lead.socialLinks.facebook = true) :
    (enrichLeadApollo lead res).socialLinks.facebook
      = lead.socialLinks.facebook := by
  unfold enrichLeadApollo
  split
  · rfl
  · split
    · rfl
    · have he : (match res.organization with
          | some org => applyApolloOrg lead org
          | none => lead).socialLinks.facebook
            = lead.socialLinks.facebook := by
        cases res.organization with
        | none => rfl
        | some org => exact applyApolloOrg_facebook org h
      cases res.people with
      | none => exact he
      | some people =>
        dsimp only
        by_cases hp : people ≠ []
        · rw [if_pos hp,
            (apolloPeopleStep_frame _ _).2.2.1, he]
        · rw [if_neg hp]
          exact he

theorem enrichLeadApollo_instagram (lead : Lead) (res : ApolloEnrichmentResult) :
    (enrichLeadApollo lead res).socialLinks.instagram
      = lead.socialLinks.instagram := by
  unfold enrichLeadApollo
  split
  · rfl
  · split
    · rfl
    · have he : (match res.organization with
          | some org => applyApolloOrg lead org
          | none => lead).socialLinks.instagram
            = lead.socialLinks.instagram := by
        cases res.organization with
        | none => rfl
        | some org => exact applyApolloOrg_instagram lead org
      cases res.people with
      | none => exact he
      | some people =>
        dsimp only
        by_cases hp : people ≠ []
        · rw [if_pos hp,
            (apolloPeopleStep_frame _ _).2.2.1, he]
        · rw [if_neg hp]
          exact he

theorem enrichLeadApollo_instagramField (lead : Lead)
    (res : ApolloEnrichmentResult) :
    (enrichLeadApollo lead res).instagramField = lead.instagramField := by
  unfold enrichLeadApollo
  split
  · rfl
  · split
    · rfl
    · have he : (match res.organization with
          | some org => applyApolloOrg lead org
          | none => lead).instagramField = lead.instagramField := by
        cases res.organization with
        | none => rfl
        | some org => exact applyApolloOrg_instagramField lead org
      cases res.people with
      | none => exact he
      | some people =>
        dsimp only
        by_cases hp : people ≠ []
        · rw [if_pos hp,
            (apolloPeopleStep_frame _ _).2.2.2, he]
        · rw [if_neg hp]
          exact he


/-! ## Shared helper lemmas -/

theorem jsOr_of_truthy {a b : Option String} (h : truthy a = true) :
    jsOr a b = a := by
  simp [jsOr, h]

theorem jsOr_of_not_truthy {a b : Option String} (h : truthy a = false) :
    jsOr a b = b := by
  simp [jsOr, h]

theorem clamp01_inUnit {c : JSNum} (h : c ≠ .nan) : InUnit (clamp01 c) := by
  cases c with
  | nan => exact absurd rfl h
  | posInf => norm_num [clamp01, jsMax, jsMin, InUnit]
  | negInf => norm_num [clamp01, jsMax, jsMin, InUnit]
  | num q =>
    simp only [clamp01, jsMax, jsMin, InUnit]
    split_ifs <;> constructor <;> linarith

/-! ## C5 — default confidence policy of the evidence mapper -/

/-- Reduction of `mapForensicField` on a value that stays non-empty after
trimming. -/
theorem mapForensicField_of_truthy {v : String} (hv : jsTrim v ≠ "")
    (ev : Option RawEvidence) :
    mapForensicField (some v) ev =
      some ⟨jsTrim v,
        ⟨mffSource (ev.bind (·.source)),
         clamp01 (mffConfidence (mffSource (ev.bind (·.source)))
           (ev.bind (·.confidence))),
         normalizeUrl (ev.bind (·.sourceUrl))⟩⟩ := by
  have htr : truthy (some (jsTrim v)) = true := by
    simp [truthy, hv]
  unfold mapForensicField
  simp [htr]

/-- C5: for every non-empty value, `mapForensicField` with evidence
`{source: "official_website"}` and no numeric confidence yields confidence
0.9; with `{source: "directory"}` it yields 0.7; with no evidence at all it
yields source `unknown` and confidence 0.5; and any `evidence.source` outside
the five known enum values is classified as `unknown`. -/
theorem mapForensicField_defaults :
    ∀ v : String, jsTrim v ≠ "" →
      (mapForensicField (some v) (some ⟨some "official_website", none, none⟩)
          = some ⟨jsTrim v, ⟨.official_website, .num (mkRat 9 10), none⟩⟩) ∧
      (mapForensicField (some v) (some ⟨some "directory", none, none⟩)
          = some ⟨jsTrim v, ⟨.directory, .num (mkRat 7 10), none⟩⟩) ∧
      (mapForensicField (some v) none
          = some ⟨jsTrim v, ⟨.unknown, .num (mkRat 1 2), none⟩⟩) ∧
      (∀ (s : String) (c : Option JSNum) (u : Option String),
        s ∉ knownSources →
        ∃ f, mapForensicField (some v) (some ⟨some s, c, u⟩) = some f ∧
          f.evidence.source = .unknown) := by
  intro v hv
  refine ⟨?_, ?_, ?_, ?_⟩
  · rw [mapForensicField_of_truthy hv]
    exact congrArg some (congrArg (ContactField.mk (jsTrim v)) (by decide))
  · rw [mapForensicField_of_truthy hv]
    exact congrArg some (congrArg (ContactField.mk (jsTrim v)) (by decide))
  · rw [mapForensicField_of_truthy hv]
    exact congrArg some (congrArg (ContactField.mk (jsTrim v)) (by decide))
  · intro s c u hs
    refine ⟨_, mapForensicField_of_truthy hv _, ?_⟩
    simp [mffSource, hs]

/-- Witness for C5 at `v = "x"` and unknown source `"blog"`. -/
theorem mapForensicField_defaults_witness :
    mapForensicField (some "x") (some ⟨some "official_website", none, none⟩)
        = some ⟨jsTrim "x", ⟨.official_website, .num (mkRat 9 10), none⟩⟩ ∧
    (mapForensicField (some "x") (some ⟨some "blog", none, none⟩)).map
        (fun f => f.evidence.source) = some .unknown := by
  have h := mapForensicField_defaults "x" (by decide)
  obtain ⟨f, hf, hs⟩ := h.2.2.2 "blog" none none (by decide)
  refine ⟨h.1, ?_⟩
  rw [hf]
  simp [hs]

/-! ## C6 — confidence clamp (corrected: `NaN` escapes the clamp) -/

/-- C6 counterexample: a numeric evidence confidence of `NaN` passes through
`Math.min(1, Math.max(0, ·))` unchanged, so the returned confidence is `NaN`,
which does not lie in [0, 1]. -/
theorem mapForensicField_nan_counterexample :
    mapForensicField (some "x") (some ⟨some "manual", some .nan, none⟩)
        = some ⟨"x", ⟨.manual, JSNum.nan, none⟩⟩ ∧
      ¬ InUnit JSNum.nan :=
  ⟨by decide, by simp [InUnit]⟩

/-- C6 as amended: for every value and every evidence input whose numeric
confidence (when number-typed at all) is not `NaN` — this includes values
outside [0, 1] and the signed infinities — the returned evidence confidence
lies in the closed interval [0, 1]. -/
theorem mapForensicField_clamped (val : Option String) (ev : Option RawEvidence)
    (hnan : ev.bind (·.confidence) ≠ some JSNum.nan) :
    ∀ f, mapForensicField val ev = some f → InUnit f.evidence.confidence := by
  intro f hf
  rcases val with _ | v
  · simp [mapForensicField, truthy] at hf
  · by_cases hv : jsTrim v = ""
    · simp [mapForensicField, truthy, hv] at hf
    · rw [mapForensicField_of_truthy hv] at hf
      simp only [Option.some_inj] at hf
      subst hf
      apply clamp01_inUnit
      rcases hconf : ev.bind (·.confidence) with _ | c
      · simp only [mffConfidence]
        split_ifs <;> simp
      · simp only [mffConfidence]
        intro hc
        exact hnan (hc ▸ hconf)

/-! ## C7 — identity key non-emptiness with deterministic fallback -/

theorem fallbackKey_ne_dom (item : IdentityItem) (d : String) :
    fallbackKey item ≠ "dom:" ++ d := by
  intro h
  have e1 : (fallbackKey item).data.head? = some 'n' := rfl
  rw [h] at e1
  have e2 : ("dom:" ++ d).data.head? = some 'd' := rfl
  rw [e2] at e1
  exact absurd e1 (by decide)

theorem fallbackKey_ne_ig (item : IdentityItem) (g : String) :
    fallbackKey item ≠ "ig:" ++ g := by
  intro h
  have e1 : (fallbackKey item).data.head? = some 'n' := rfl
  rw [h] at e1
  have e2 : ("ig:" ++ g).data.head? = some 'i' := rfl
  rw [e2] at e1
  exact absurd e1 (by decide)

/-- C7: `getIdentityKeys` always returns a non-empty list; it contains
`dom:<domain>` whenever a normalized domain exists and `ig:<handle>` whenever
a normalized Instagram handle exists, and it contains the deterministic
`name:<name>|<address>` fallback key exactly when neither of those keys was
produced. -/
theorem getIdentityKeys_spec (item : IdentityItem) :
    getIdentityKeys item ≠ [] ∧
    (∀ d, normalizeDomain item.website = some d →
      ("dom:" ++ d) ∈ getIdentityKeys item) ∧
    (∀ g, normalizeSocial item.socialInstagram = some g →
      ("ig:" ++ g) ∈ getIdentityKeys item) ∧
    (fallbackKey item ∈ getIdentityKeys item ↔
      normalizeDomain item.website = none ∧
      normalizeSocial item.socialInstagram = none) := by
  unfold getIdentityKeys
  rcases hd : normalizeDomain item.website with _ | d <;>
    rcases hg : normalizeSocial item.socialInstagram with _ | g <;>
      simp [hd, hg]
  · exact fallbackKey_ne_ig item g
  · exact fallbackKey_ne_dom item d
  · exact ⟨fallbackKey_ne_dom item d, fallbackKey_ne_ig item g⟩

/-- Witness for C7 on an entity with no website and no Instagram handle
(fallback key) and one with both (no fallback key). -/
theorem getIdentityKeys_spec_witness :
    getIdentityKeys ⟨"Acme Inc", none, some " Main St ", none, none⟩
        ≠ [] ∧
    ("dom:" ++ "acme.com") ∈
      getIdentityKeys ⟨"Acme", some "https://www.acme.com/x", none,
        some "@AcmeGram", none⟩ := by
  refine ⟨(getIdentityKeys_spec _).1, ?_⟩
  exact (getIdentityKeys_spec _).2.1 "acme.com" (by decide)

/-! ## C9 — domain normalization idempotence (corrected) -/

/-- C9 counterexample: the regex prefix `^(https?:\/\/)?(www\.)?` strips at
most one `www.`, so `normalizeDomain` applied to its own output can strip
again. -/
theorem normalizeDomain_idempotence_counterexample :
    normalizeDomain (normalizeDomain (some "www.www.a.com"))
        ≠ normalizeDomain (some "www.www.a.com") ∧
    normalizeDomain (some "www.www.a.com") = some "www.a.com" ∧
    normalizeDomain (some "www.a.com") = some "a.com" := by
  refine ⟨by decide, rfl, rfl⟩

theorem takeWhile_eq_self_of_all {p : Char → Bool} :
    ∀ {l : List Char}, (∀ c ∈ l, p c = true) → l.takeWhile p = l := by
  intro l h
  induction l with
  | nil => rfl
  | cons c rest ih =>
    have hc := h c (List.mem_cons_self c rest)
    have ih2 := ih (fun x hx => h x (List.mem_cons_of_mem c hx))
    simp [List.takeWhile_cons, hc, ih2]

theorem normalizeDomain_delims {x d : String}
    (h : normalizeDomain (some x) = some d) :
    ∀ c ∈ d.data, notDomainDelim c = true := by
  simp only [normalizeDomain] at h
  split at h
  · exact absurd h (by simp)
  · split at h
    · exact absurd h (by simp)
    · simp only [Option.some_inj] at h
      subst h
      intro c hc
      exact List.mem_takeWhile_imp hc

theorem normalizeDomain_ne_empty {x d : String}
    (h : normalizeDomain (some x) = some d) : d ≠ "" := by
  simp only [normalizeDomain] at h
  split at h
  · exact absurd h (by simp)
  · split at h
    · exact absurd h (by simp)
    · simp only [Option.some_inj] at h
      subst h
      rename_i hne
      intro he
      exact hne (congrArg String.data he)

/-- C9 as amended: `normalizeDomain` is idempotent on every input whose
normalized form does not itself start with `www.` and is unchanged by
lowercasing and trimming (both can fail: `normalizeDomain "www.www.a.com" =
"www.a.com"`, and `normalizeDomain "www. a.com" = " a.com"` keeps a leading
space that a second pass trims). -/
theorem normalizeDomain_idempotent_of_clean :
    ∀ (x d : String), normalizeDomain (some x) = some d →
      jsTrim (jsToLower d) = d →
      "www.".data.isPrefixOf d.data = false →
      normalizeDomain (normalizeDomain (some x)) = normalizeDomain (some x) := by
  intro x d h hclean hwww
  rw [h]
  have hdelim := normalizeDomain_delims h
  have hne : d ≠ "" := normalizeDomain_ne_empty h
  have hslash : ∀ pre : String, '/' ∈ pre.data →
      pre.data.isPrefixOf d.data = false := by
    intro pre hmem
    by_contra hc
    have hpre : pre.data <+: d.data := by
      rw [← List.isPrefixOf_iff_prefix]
      exact Bool.of_not_eq_false hc
    have := hdelim '/' (hpre.subset hmem)
    exact absurd this (by decide)
  have hstrip : stripWwwProto d.data = d.data := by
    unfold stripWwwProto
    simp [hslash "https://" (by decide), hslash "http://" (by decide), hwww]
  have htake : d.data.takeWhile notDomainDelim = d.data :=
    takeWhile_eq_self_of_all hdelim
  unfold normalizeDomain
  simp only [hclean, hstrip, htake]
  rw [if_neg hne, if_neg (fun hd => hne (congrArg String.mk hd))]

/-- Witness for C9 (amended) at `x = "HTTP://WWW.Example.com/path"`. -/
theorem normalizeDomain_idempotent_witness :
    normalizeDomain (normalizeDomain (some "HTTP://WWW.Example.com/path"))
      = normalizeDomain (some "HTTP://WWW.Example.com/path") :=
  normalizeDomain_idempotent_of_clean "HTTP://WWW.Example.com/path"
    "example.com" (by decide) (by decide) (by decide)

/-! ## C10 — Deep Scan degrades to Standard Scan when unconfigured -/

/-- C10: when the Apollo API key is absent or empty,
`discoverProspectsDeepScan` returns exactly the result of a STANDARD
`discoverProspects` run with the same arguments. -/
theorem deepScanFallsBackToStandard :
    ∀ (apiKey : Option String) (env : DeepScanEnv),
      (apiKey = none ∨ apiKey = some "") →
      discoverProspectsDeepScan apiKey env = env.discover .STANDARD := by
  intro apiKey env h
  rcases h with h | h <;> subst h <;>
    simp [discoverProspectsDeepScan, isApolloConfigured]

/-- A concrete collaborator environment for the C10 witness. -/
def deepScanWitnessEnv : DeepScanEnv where
  discover := fun _ => []
  enrich := fun _ => ⟨false, none, none⟩

/-- Witness for C10 with the key absent. -/
theorem deepScanFallsBackToStandard_witness :
    discoverProspectsDeepScan none deepScanWitnessEnv
      = deepScanWitnessEnv.discover .STANDARD :=
  deepScanFallsBackToStandard none deepScanWitnessEnv (Or.inl rfl)

/-- Witness for C6 (amended) at an out-of-range numeric confidence of 5. -/
theorem mapForensicField_clamped_witness :
    (mapForensicField (some "x")
        (some ⟨some "directory", some (.num (mkRat 5 1)), none⟩)).map
      (fun f => decide (InUnit f.evidence.confidence)) = some true := by
  have hf : mapForensicField (some "x")
      (some ⟨some "directory", some (.num (mkRat 5 1)), none⟩)
        = some ⟨"x", ⟨.directory, .num (mkRat 1 1), none⟩⟩ := by decide
  have h := mapForensicField_clamped (some "x")
    (some ⟨some "directory", some (.num (mkRat 5 1)), none⟩) (by decide) _ hf
  rw [hf]
  exact congrArg some (decide_eq_true h)


/-! ## C1 — non-overwrite merge invariant -/

/-- C1: for every base lead and every supplemental merge layer (Apollo
organisation data or scraped social links), a contact field (phone, address,
or any social link) that is already populated in the base is kept verbatim —
the supplemental value is discarded (the Apollo layer never touches
instagram at all), and supplemental values are adopted only into empty
fields. -/
theorem merge_non_overwrite :
    ∀ (lead : Lead) (org : ApolloOrganization) (ex scraped : ScrapedSocialLinks),
      (truthy lead.phone = true →
        (applyApolloOrg lead org).phone = lead.phone) ∧
      (truthy lead.address = true →
        (applyApolloOrg lead org).address = lead.address) ∧
      (truthy lead.socialLinks.linkedIn = true →
        (applyApolloOrg lead org).socialLinks.linkedIn
          = lead.socialLinks.linkedIn) ∧
      (truthy lead.socialLinks.twitter = true →
        (applyApolloOrg lead org).socialLinks.twitter
          = lead.socialLinks.twitter) ∧
      (truthy lead.socialLinks.facebook = true →
        (applyApolloOrg lead org).socialLinks.facebook
          = lead.socialLinks.facebook) ∧
      ((applyApolloOrg lead org).socialLinks.instagram
          = lead.socialLinks.instagram) ∧
      (truthy ex.instagram = true →
        (mergeSocialLinks ex scraped).instagram = ex.instagram) ∧
      (truthy ex.facebook = true →
        (mergeSocialLinks ex scraped).facebook = ex.facebook) ∧
      (truthy ex.twitter = true →
        (mergeSocialLinks ex scraped).twitter = ex.twitter) ∧
      (truthy ex.linkedIn = true →
        (mergeSocialLinks ex scraped).linkedIn = ex.linkedIn) ∧
      (truthy ex.youtube = true →
        (mergeSocialLinks ex scraped).youtube = ex.youtube) ∧
      (truthy ex.tiktok = true →
        (mergeSocialLinks ex scraped).tiktok = ex.tiktok) := by
  intro lead org ex scraped
  refine ⟨applyApolloOrg_phone org, applyApolloOrg_address org,
    applyApolloOrg_linkedIn org, applyApolloOrg_twitter org,
    applyApolloOrg_facebook org, applyApolloOrg_instagram lead org,
    ?_, ?_, ?_, ?_, ?_, ?_⟩ <;>
    exact fun h => by simp [mergeSocialLinks, jsOr_of_truthy h]

/-- A fully populated base lead for the C1/C2 witnesses. -/
def leadW : Lead where
  companyName := "Acme"
  description := "d"
  website := "https://a.com/"
  email := some "e@a.com"
  phone := some "111"
  address := some "1 Main St"
  socialLinks := ⟨some "ig", some "li", some "fb", some "tw"⟩
  emailField := none
  phoneField := none
  addressField := none
  instagramField := none
  linkedInField := none
  twitterField := none
  enrichedContacts := []

/-- An Apollo organisation record supplying every field, for the C1 witness. -/
def orgW : ApolloOrganization :=
  ⟨some "222", some "2 St", some "C", some "S", some "Z", some "US",
   some "li2", some "tw2", some "fb2", some "blurb"⟩

/-- Fully populated existing social links for the C1 witness. -/
def exW : ScrapedSocialLinks :=
  ⟨some "ig", some "fb", some "tw", some "li", some "yt", some "tk"⟩

/-- A conflicting scraped social-links record for the C1/C2 witnesses. -/
def scrW : ScrapedSocialLinks :=
  ⟨some "ig2", some "fb2", some "tw2", some "li2", some "yt2", some "tk2"⟩

/-- Witness for C1: every populated field of `leadW`/`exW` survives both
supplemental layers unchanged. -/
theorem merge_non_overwrite_witness :
    (applyApolloOrg leadW orgW).phone = leadW.phone ∧
    (applyApolloOrg leadW orgW).address = leadW.address ∧
    (applyApolloOrg leadW orgW).socialLinks.linkedIn
      = leadW.socialLinks.linkedIn ∧
    (applyApolloOrg leadW orgW).socialLinks.twitter
      = leadW.socialLinks.twitter ∧
    (applyApolloOrg leadW orgW).socialLinks.facebook
      = leadW.socialLinks.facebook ∧
    (applyApolloOrg leadW orgW).socialLinks.instagram
      = leadW.socialLinks.instagram ∧
    (mergeSocialLinks exW scrW).instagram = exW.instagram ∧
    (mergeSocialLinks exW scrW).facebook = exW.facebook ∧
    (mergeSocialLinks exW scrW).twitter = exW.twitter ∧
    (mergeSocialLinks exW scrW).linkedIn = exW.linkedIn ∧
    (mergeSocialLinks exW scrW).youtube = exW.youtube ∧
    (mergeSocialLinks exW scrW).tiktok = exW.tiktok := by
  obtain ⟨h1, h2, h3, h4, h5, h6, h7, h8, h9, h10, h11, h12⟩ :=
    merge_non_overwrite leadW orgW exW scrW
  exact ⟨h1 (by decide), h2 (by decide), h3 (by decide), h4 (by decide),
    h5 (by decide), h6, h7 (by decide), h8 (by decide), h9 (by decide),
    h10 (by decide), h11 (by decide), h12 (by decide)⟩

/-! ## C2 — merge layer ordering (corrected: scrape runs before Apollo) -/

/-- A bare discovered lead (website only) for the C2/C3 fixtures. -/
def bareLead : Lead where
  companyName := "Acme"
  description := "d"
  website := "https://a.com/"
  email := none
  phone := none
  address := none
  socialLinks := ⟨none, none, none, none⟩
  emailField := none
  phoneField := none
  addressField := none
  instagramField := none
  linkedInField := none
  twitterField := none
  enrichedContacts := []

/-- A scrape result carrying a LinkedIn link, for the C2 counterexample. -/
def scrapedLinkedIn : ScrapedSocialLinks :=
  ⟨none, none, none, some "https://linkedin.com/company/scr", none, none⟩

/-- A successful Apollo result whose organisation carries a conflicting
LinkedIn link. -/
def apolloLinkedInRes : ApolloEnrichmentResult :=
  ⟨true, some { ApolloOrganization.empty with
      linkedin_url := some "https://linkedin.com/company/apo" }, none⟩

/-- C2 counterexample: the pipeline the code implements (scrape inside
discovery, Apollo afterwards) differs from the spec's claimed order (Apollo
second, scrape third): when both layers offer a LinkedIn link, the code
keeps the scraped one, while the claimed order would keep Apollo's. -/
theorem mergeOrder_counterexample :
    deepScanLeadPipeline bareLead scrapedLinkedIn apolloLinkedInRes
        ≠ specOrderLeadPipeline bareLead scrapedLinkedIn apolloLinkedInRes ∧
    (deepScanLeadPipeline bareLead scrapedLinkedIn apolloLinkedInRes
        ).socialLinks.linkedIn = some "https://linkedin.com/company/scr" ∧
    (specOrderLeadPipeline bareLead scrapedLinkedIn apolloLinkedInRes
        ).socialLinks.linkedIn = some "https://linkedin.com/company/apo" := by
  exact ⟨by decide, by decide, by decide⟩

/-- C2 as amended: in the deep-scan pipeline the HTML-scrape layer is applied
first (inside `discoverProspects`), the Apollo layer second, and the Apollo
layer only fills gaps still remaining after discovery plus scrape. -/
theorem mergeOrder_scrape_then_apollo :
    ∀ (lead : Lead) (scraped : ScrapedSocialLinks)
      (res : ApolloEnrichmentResult),
      deepScanLeadPipeline lead scraped res
          = enrichLeadApollo (scrapeFallbackStep lead scraped) res ∧
      (truthy (scrapeFallbackStep lead scraped).phone = true →
        (deepScanLeadPipeline lead scraped res).phone
          = (scrapeFallbackStep lead scraped).phone) ∧
      (truthy (scrapeFallbackStep lead scraped).address = true →
        (deepScanLeadPipeline lead scraped res).address
          = (scrapeFallbackStep lead scraped).address) ∧
      (truthy (scrapeFallbackStep lead scraped).socialLinks.linkedIn = true →
        (deepScanLeadPipeline lead scraped res).socialLinks.linkedIn
          = (scrapeFallbackStep lead scraped).socialLinks.linkedIn) ∧
      (truthy (scrapeFallbackStep lead scraped).socialLinks.twitter = true →
        (deepScanLeadPipeline lead scraped res).socialLinks.twitter
          = (scrapeFallbackStep lead scraped).socialLinks.twitter) ∧
      (truthy (scrapeFallbackStep lead scraped).socialLinks.facebook = true →
        (deepScanLeadPipeline lead scraped res).socialLinks.facebook
          = (scrapeFallbackStep lead scraped).socialLinks.facebook) ∧
      ((deepScanLeadPipeline lead scraped res).socialLinks.instagram
          = (scrapeFallbackStep lead scraped).socialLinks.instagram) := by
  intro lead scraped res
  exact ⟨rfl, enrichLeadApollo_phone res, enrichLeadApollo_address res,
    enrichLeadApollo_linkedIn res, enrichLeadApollo_twitter res,
    enrichLeadApollo_facebook res, enrichLeadApollo_instagram _ res⟩

/-- Witness for C2 (amended) on a lead populated by discovery. -/
theorem mergeOrder_scrape_then_apollo_witness :
    (deepScanLeadPipeline leadW scrW apolloLinkedInRes).phone
        = (scrapeFallbackStep leadW scrW).phone ∧
    (deepScanLeadPipeline leadW scrW apolloLinkedInRes).socialLinks.instagram
        = (scrapeFallbackStep leadW scrW).socialLinks.instagram := by
  obtain ⟨-, h2, -, -, -, -, h7⟩ :=
    mergeOrder_scrape_then_apollo leadW scrW apolloLinkedInRes
  exact ⟨h2 (by decide), h7⟩

/-! ## C3 — scrape fill-only scenario -/

/-- C3: for every lead with a website, no social links after discovery and an
empty instagram, if the scrape layer yields instagram `"acme"`, the final
deep-scan lead has `socialLinks.instagram = "acme"` together with an
instagram field-evidence record with source `official_website` and
confidence 0.85 — whatever the Apollo layer returns (it never touches
instagram). -/
theorem scrapeFillInstagram :
    ∀ (lead : Lead) (scraped : ScrapedSocialLinks)
      (res : ApolloEnrichmentResult),
      lead.website ≠ "" →
      hasSocialLinks lead = false →
      scraped.instagram = some "acme" →
      (deepScanLeadPipeline lead scraped res).socialLinks.instagram
          = some "acme" ∧
      ∃ f, (deepScanLeadPipeline lead scraped res).instagramField = some f ∧
        f.value = "acme" ∧ f.evidence.source = .official_website ∧
        f.evidence.confidence = .num (mkRat 85 100) := by
  intro lead scraped res hw hsl hig
  have hkeys : ¬ scraped.keyCount = 0 := by
    simp [ScrapedSocialLinks.keyCount, hig]
  have hnig : truthy lead.socialLinks.instagram = false := by
    rcases Bool.or_eq_false_iff.mp
      (Bool.or_eq_false_iff.mp (Bool.or_eq_false_iff.mp hsl).1).1 with ⟨h1, -⟩
    exact h1
  have hmerged :
      (mergeSocialLinks lead.socialLinks.toScraped scraped).instagram
        = some "acme" := by
    simp only [mergeSocialLinks, SocialLinks.toScraped]
    rw [jsOr_of_not_truthy hnig, hig]
  have hnsl : ¬ hasSocialLinks lead = true := by simp [hsl]
  have hg1 : (scrapeFallbackStep lead scraped).socialLinks.instagram
      = some "acme" := by
    unfold scrapeFallbackStep
    rw [if_neg hw, if_neg hnsl, if_neg hkeys]
    exact hmerged
  have hg2 : (scrapeFallbackStep lead scraped).instagramField
      = some ⟨"acme", scrapedEvidence lead.website⟩ := by
    unfold scrapeFallbackStep
    rw [if_neg hw, if_neg hnsl, if_neg hkeys]
    simp only [hmerged]
    rfl
  refine ⟨?_, ⟨"acme", scrapedEvidence lead.website⟩, ?_, rfl, rfl, rfl⟩
  · rw [show deepScanLeadPipeline lead scraped res
        = enrichLeadApollo (scrapeFallbackStep lead scraped) res from rfl,
      enrichLeadApollo_instagram, hg1]
  · rw [show deepScanLeadPipeline lead scraped res
        = enrichLeadApollo (scrapeFallbackStep lead scraped) res from rfl,
      enrichLeadApollo_instagramField, hg2]

/-- The scrape result of the C3 witness. -/
def scrapedAcme : ScrapedSocialLinks :=
  ⟨some "acme", none, none, none, none, none⟩

/-- Witness for C3 on the bare discovered lead. -/
theorem scrapeFillInstagram_witness :
    (deepScanLeadPipeline bareLead scrapedAcme apolloLinkedInRes
        ).socialLinks.instagram = some "acme" ∧
    ((deepScanLeadPipeline bareLead scrapedAcme apolloLinkedInRes
        ).instagramField).map
      (fun f => (f.value, f.evidence.source, f.evidence.confidence))
        = some ("acme", .official_website, .num (mkRat 85 100)) := by
  obtain ⟨h1, f, hf, hv, hs, hc⟩ :=
    scrapeFillInstagram bareLead scrapedAcme apolloLinkedInRes
      (by decide) (by decide) rfl
  refine ⟨h1, ?_⟩
  rw [hf]
  simp [hv, hs, hc]


/-! ## C4 — contact-intelligence primary flag (corrected) -/

/-- Number of entries of a given type flagged primary. -/
def countPrimaryOfType (t : ContactMethodType)
    (l : List ContactIntelligence) : Nat :=
  (l.filter (fun e => e.type = t ∧ e.isPrimary)).length

theorem apolloPhoneEntries_type (i : Nat) (p : ApolloPerson) :
    ∀ c ∈ apolloPhoneEntries i p, c.type = .PHONE := by
  intro c hc
  unfold apolloPhoneEntries at hc
  rcases hpn : p.phone_numbers with _ | phones
  · simp [hpn] at hc
  · simp only [hpn] at hc
    obtain ⟨ip, -, heq⟩ := List.mem_filterMap.mp hc
    rcases hsn : ip.2.sanitized_number with _ | n
    · simp [hsn] at heq
    · simp only [hsn] at heq
      by_cases hn : n ≠ ""
      · rw [if_pos hn] at heq
        simp only [Option.some_inj] at heq
        subst heq
        rfl
      · rw [if_neg hn] at heq
        cases heq

theorem apolloLinkedInEntries_type (i : Nat) (p : ApolloPerson) :
    ∀ c ∈ apolloLinkedInEntries i p, c.type = .LINKEDIN := by
  intro c hc
  unfold apolloLinkedInEntries at hc
  rcases hpl : p.linkedin_url with _ | li
  · simp [hpl] at hc
  · simp only [hpl] at hc
    by_cases hl : li ≠ ""
    · rw [if_pos hl] at hc
      simp only [List.mem_singleton] at hc
      subst hc
      rfl
    · rw [if_neg hl] at hc
      cases hc

/-- The discovery mapper's base lead for the C4 counterexample: discovery
already found an e-mail, so the mapper made a primary EMAIL entry. -/
def c4BaseLead : Lead :=
  { bareLead with
      email := some "c@x.com"
      enrichedContacts :=
        discoveryContacts "https://a.com/" (some "c@x.com") none none none
          none ContactEvidenceMap.empty }

/-- Apollo people returned for C4: `a@x.com` at index 0, `b@x.com` at 1. -/
def c4People : List ApolloPerson :=
  [⟨some "a@x.com", some "verified", none, none, none⟩,
   ⟨some "b@x.com", some "verified", none, none, none⟩]

/-- The Apollo result for C4. -/
def c4Res : ApolloEnrichmentResult := ⟨true, none, some c4People⟩

/-- C4 counterexample: with an e-mail already found at discovery, the
discovery mapper's EMAIL entry and Apollo's index-0 entry are BOTH flagged
primary — two primary EMAIL entries, not exactly one.  The scalar e-mail is
(correctly) left at its discovery value. -/
theorem primaryFlag_counterexample :
    countPrimaryOfType .EMAIL
        (enrichLeadApollo c4BaseLead c4Res).enrichedContacts = 2 ∧
    ¬ countPrimaryOfType .EMAIL
        (enrichLeadApollo c4BaseLead c4Res).enrichedContacts = 1 ∧
    (enrichLeadApollo c4BaseLead c4Res).email = some "c@x.com" := by
  exact ⟨by decide, by decide, by decide⟩

/-- C4 as amended: for every lead whose contact list holds no EMAIL entry
(as the discovery mapper produces when discovery found no e-mail), after an
Apollo pass returning two people with non-empty e-mails, exactly one EMAIL
entry is flagged primary and it carries the index-0 person's address; the
scalar e-mail is set to the index-0 person's e-mail exactly when it was
previously empty. -/
theorem primaryFlag_unique_amended :
    ∀ (lead : Lead) (e1 e2 : String) (p1 p2 : ApolloPerson),
      p1.email = some e1 → p2.email = some e2 →
      e1 ≠ "" → e2 ≠ "" →
      lead.website ≠ "" → jsTrim lead.website ≠ "" →
      (∀ c ∈ lead.enrichedContacts, c.type ≠ .EMAIL) →
      countPrimaryOfType .EMAIL
          (enrichLeadApollo lead ⟨true, none, some [p1, p2]⟩).enrichedContacts
            = 1 ∧
      (∀ c ∈ (enrichLeadApollo lead ⟨true, none, some [p1, p2]⟩).enrichedContacts,
        c.type = .EMAIL → c.isPrimary = true → c.value = e1) ∧
      (truthy lead.email = true →
        (enrichLeadApollo lead ⟨true, none, some [p1, p2]⟩).email
          = lead.email) ∧
      (truthy lead.email = false →
        (enrichLeadApollo lead ⟨true, none, some [p1, p2]⟩).email
          = some e1) := by
  intro lead e1 e2 p1 p2 hp1 hp2 he1 he2 hw hwt hbase
  have hred : enrichLeadApollo lead ⟨true, none, some [p1, p2]⟩
      = apolloPeopleStep lead [p1, p2] := by
    unfold enrichLeadApollo
    rw [if_neg (by push_neg; exact ⟨hw, hwt⟩)]
    rw [if_neg (by simp)]
    dsimp only
    rw [if_pos (by simp)]
  have hcontacts :
      ([p1, p2].enum.map (fun ip => apolloPersonContacts ip.1 ip.2)).flatten
        = apolloPersonContacts 0 p1 ++ apolloPersonContacts 1 p2 := by
    show apolloPersonContacts 0 p1 ++ (apolloPersonContacts 1 p2 ++ []) = _
    rw [List.append_nil]
  have hee1 : apolloEmailEntries 0 p1
      = [{ id := "apollo-email-" ++ toString 0, type := .EMAIL, value := e1,
           confidence := apolloEmailConf p1.email_status,
           source := apolloSource p1.title, isPrimary := decide (0 = 0) }] := by
    unfold apolloEmailEntries
    rw [hp1]
    dsimp only
    rw [if_pos he1]
  have hee2 : apolloEmailEntries 1 p2
      = [{ id := "apollo-email-" ++ toString 1, type := .EMAIL, value := e2,
           confidence := apolloEmailConf p2.email_status,
           source := apolloSource p2.title, isPrimary := decide (1 = 0) }] := by
    unfold apolloEmailEntries
    rw [hp2]
    dsimp only
    rw [if_pos he2]
  have hmem : ∀ c ∈ (apolloPeopleStep lead [p1, p2]).enrichedContacts,
      c ∈ lead.enrichedContacts ∨
      c ∈ apolloEmailEntries 0 p1 ∨ c ∈ apolloPhoneEntries 0 p1 ∨
      c ∈ apolloLinkedInEntries 0 p1 ∨
      c ∈ apolloEmailEntries 1 p2 ∨ c ∈ apolloPhoneEntries 1 p2 ∨
      c ∈ apolloLinkedInEntries 1 p2 := by
    intro c hc
    have hc2 : c ∈ (apolloPeopleStep lead [p1, p2]).enrichedContacts := hc
    unfold apolloPeopleStep at hc2
    dsimp only at hc2
    rw [hcontacts] at hc2
    rw [List.mem_append] at hc2
    rcases hc2 with hc2 | hc2
    · left
      revert hc2
      dsimp only [List.head?]
      rw [hp1]
      dsimp only
      split
      · exact fun h => h
      · exact fun h => h
    · unfold apolloPersonContacts at hc2
      simp only [List.mem_append] at hc2
      tauto
  have hfilterBase :
      lead.enrichedContacts.filter
        (fun e => e.type = ContactMethodType.EMAIL ∧ e.isPrimary) = [] := by
    rw [List.filter_eq_nil_iff]
    intro c hc
    simp [hbase c hc]
  have hfilterPh : ∀ (i : Nat) (p : ApolloPerson),
      (apolloPhoneEntries i p).filter
        (fun e => e.type = ContactMethodType.EMAIL ∧ e.isPrimary) = [] := by
    intro i p
    rw [List.filter_eq_nil_iff]
    intro c hc
    simp [apolloPhoneEntries_type i p c hc]
  have hfilterLi : ∀ (i : Nat) (p : ApolloPerson),
      (apolloLinkedInEntries i p).filter
        (fun e => e.type = ContactMethodType.EMAIL ∧ e.isPrimary) = [] := by
    intro i p
    rw [List.filter_eq_nil_iff]
    intro c hc
    simp [apolloLinkedInEntries_type i p c hc]
  have hcount : countPrimaryOfType .EMAIL
      (apolloPeopleStep lead [p1, p2]).enrichedContacts = 1 := by
    have hec : (apolloPeopleStep lead [p1, p2]).enrichedContacts
        = lead.enrichedContacts ++
          (apolloPersonContacts 0 p1 ++ apolloPersonContacts 1 p2) := by
      unfold apolloPeopleStep
      dsimp only [List.head?]
      rw [hcontacts, hp1]
      dsimp only
      split <;> rfl
    rw [countPrimaryOfType, hec]
    unfold apolloPersonContacts
    simp only [List.filter_append, hfilterBase, hfilterPh, hfilterLi, hee1,
      hee2, List.length_append]
    simp [List.filter]
  refine ⟨hred ▸ hcount, ?_, ?_, ?_⟩
  · intro c hc ht hp
    rw [hred] at hc
    rcases hmem c hc with h | h | h | h | h | h | h
    · exact absurd ht (hbase c h)
    · rw [hee1] at h
      simp only [List.mem_singleton] at h
      subst h
      rfl
    · exact absurd ht (by simp [apolloPhoneEntries_type 0 p1 c h])
    · exact absurd ht (by simp [apolloLinkedInEntries_type 0 p1 c h])
    · rw [hee2] at h
      simp only [List.mem_singleton] at h
      subst h
      exact absurd hp (by simp)
    · exact absurd ht (by simp [apolloPhoneEntries_type 1 p2 c h])
    · exact absurd ht (by simp [apolloLinkedInEntries_type 1 p2 c h])
  · intro hle
    rw [hred]
    unfold apolloPeopleStep
    dsimp only [List.head?]
    rw [hp1]
    dsimp only
    rw [if_neg (by simp [hle])]
  · intro hle
    rw [hred]
    unfold apolloPeopleStep
    dsimp only [List.head?]
    rw [hp1]
    dsimp only
    rw [if_pos ⟨he1, by simp [hle]⟩]

/-- The discovery-mapper base lead for the C4 (amended) witness: discovery
found no e-mail, so the contact list has no EMAIL entry. -/
def c4NoEmailLead : Lead :=
  { bareLead with
      enrichedContacts :=
        discoveryContacts "https://a.com/" none none none none none
          ContactEvidenceMap.empty }

/-- Witness for C4 (amended) on the no-discovery-email lead with the two
Apollo people of the scenario. -/
theorem primaryFlag_unique_amended_witness :
    countPrimaryOfType .EMAIL
        (enrichLeadApollo c4NoEmailLead
          ⟨true, none, some [⟨some "a@x.com", some "verified", none, none, none⟩,
            ⟨some "b@x.com", some "verified", none, none, none⟩]⟩
          ).enrichedContacts = 1 ∧
    (enrichLeadApollo c4NoEmailLead
        ⟨true, none, some [⟨some "a@x.com", some "verified", none, none, none⟩,
          ⟨some "b@x.com", some "verified", none, none, none⟩]⟩).email
      = some "a@x.com" := by
  obtain ⟨h1, -, -, h4⟩ :=
    primaryFlag_unique_amended c4NoEmailLead "a@x.com" "b@x.com"
      ⟨some "a@x.com", some "verified", none, none, none⟩
      ⟨some "b@x.com", some "verified", none, none, none⟩
      rfl rfl (by decide) (by decide) (by decide) (by decide) (by decide)
  exact ⟨h1, h4 (by decide)⟩


/-! ## C8 — JSON extraction cascade (corrected) -/

/-- C8 counterexample: for prose surrounding a single JSON object the claim
promises the parsed object, but `extractJson` returns `null` — after the
direct parse fails it only tries the `[ { ... } ]` array-of-objects regex and
then a fenced block, and neither matches a bare object in prose. -/
theorem extractJson_prose_object_counterexample :
    extractJson "hello \x7b\"a\":1\x7d world" = none := rfl

/-- C8 as amended: `extractJson` tries, in this order, a direct parse of the
trimmed text, then a parse of the `/\[\s*\{[\s\S]*\}\s*\]/` array-of-objects
match (not a general first/last bracket pair), then a parse of a fenced code
block body — the bracket fallback runs BEFORE the fenced one; it never
throws and returns `null` when all attempts fail, including for prose around
a lone object. -/
theorem extractJson_cascade :
    extractJson "\x7b\"a\":1\x7d" = some (.obj [("a", .num (mkRat 1 1))]) ∧
    extractJson "not json at all" = none ∧
    extractJson "```json\n[\x7b\"a\":1\x7d]\n```"
        = some (.arr [.obj [("a", .num (mkRat 1 1))]]) ∧
    extractJson "```json\n[1]\n``` and [ \x7b\"b\":2\x7d ]"
        = some (.arr [.obj [("b", .num (mkRat 2 1))]]) ∧
    extractJson "hello \x7b\"a\":1\x7d world" = none ∧
    extractJson "" = none := by
  have ha : String.mk ['a'] = "a" := by decide
  have hb : String.mk ['b'] = "b" := by decide
  refine ⟨?_, rfl, ?_, ?_, rfl, rfl⟩
  · have h : extractJson "\x7b\"a\":1\x7d"
        = some (.obj [(String.mk ['a'], .num (mkRat 1 1))]) := rfl
    rw [h, ha]
  · have h : extractJson "```json\n[\x7b\"a\":1\x7d]\n```"
        = some (.arr [.obj [(String.mk ['a'], .num (mkRat 1 1))]]) := rfl
    rw [h, ha]
  · have h : extractJson "```json\n[1]\n``` and [ \x7b\"b\":2\x7d ]"
        = some (.arr [.obj [(String.mk ['b'], .num (mkRat 2 1))]]) := rfl
    rw [h, hb]

end Scout
